import Mathlib

/-!
Shallow embedding of the Dino Ventures wallet service transactional ledger
engine (src/src/transactionService.js, src/src/db.js) over the relational
state described by src/schema.sql.  Tables are Lean lists of rows; one
database transaction is one Lean function from the pre-state to either an
error (BEGIN .. ROLLBACK: the pre-state persists) or the post-state together
with the response (BEGIN .. COMMIT).  Timestamps are naturals (seconds),
amounts are integers (exact DECIMAL arithmetic), UUIDs are naturals drawn
from a freshness counter.
-/

namespace Wallet

/-- The `entry_type` column of `ledger_entries` (schema.sql: CHECK entry_type IN ('debit','credit')). -/
inductive EntryType where
  | debit
  | credit
deriving DecidableEq, Repr

/-- A row of `asset_types` (the columns the engine reads). -/
structure AssetType where
  id : Nat
  code : String
  is_active : Bool
deriving DecidableEq, Repr

/-- A row of `accounts` joined with its `account_types.code`
(the engine only ever reads accounts through that join or by `user_id`). -/
structure Account where
  id : Nat
  account_type_code : String
  user_id : Option String
  is_active : Bool
deriving DecidableEq, Repr

/-- A row of `transaction_types`. -/
structure TransactionType where
  id : Nat
  code : String
deriving DecidableEq, Repr

/-- A row of `transactions` (the transaction header). -/
structure TransactionHeader where
  id : Nat
  idempotency_key : String
  transaction_type_id : Nat
  asset_type_id : Nat
  amount : Int
  description : String
  status : String
  completed_at : Option Nat
deriving DecidableEq, Repr

/-- A row of `ledger_entries`. -/
structure LedgerEntry where
  transaction_id : Nat
  account_id : Nat
  asset_type_id : Nat
  entry_type : EntryType
  amount : Int
  running_balance : Int
  description : String
deriving DecidableEq, Repr

/-- A row of `balance_cache`. -/
structure BalanceRow where
  account_id : Nat
  asset_type_id : Nat
  balance : Int
  last_transaction_id : Option Nat
deriving DecidableEq, Repr

/-- Source `_hashRequest` computes SHA-256 over the JSON of `{userId, assetCode, amount}`;
we model the hash by the hashed tuple itself (collision-free by construction). -/
structure RequestHash where
  userId : String
  assetCode : String
  amount : Int
deriving DecidableEq, Repr

/-- The JSON response payload assembled by the three operations.
`reason` is set only by issueBonus, `item` only by purchase. -/
structure Response where
  transactionId : Nat
  userId : String
  assetCode : String
  amount : Int
  newBalance : Int
  reason : Option String
  item : Option String
  timestamp : Nat
deriving DecidableEq, Repr

/-- A row of `idempotency_log`. -/
structure IdempotencyRow where
  idempotency_key : String
  request_hash : RequestHash
  response_data : Response
  status : String
  expires_at : Nat
deriving DecidableEq, Repr

/-- A row of `audit_log` (the columns `_createAuditLog` writes). -/
structure AuditRow where
  transaction_id : Nat
  account_id : Nat
  action : String
deriving DecidableEq, Repr

/-- The `metadata` argument of the three operations (the fields the code reads). -/
structure Metadata where
  description : Option String
  reason : Option String
  itemName : Option String
  itemId : Option String
deriving DecidableEq, Repr

/-- Empty metadata (the JS default `{}`). -/
def Metadata.empty : Metadata := ⟨none, none, none, none⟩

/-- Database state: the nine relations the engine touches, the clock
(`CURRENT_TIMESTAMP` / `new Date()`), and the UUID freshness counter. -/
structure DB where
  asset_types : List AssetType
  accounts : List Account
  transaction_types : List TransactionType
  transactions : List TransactionHeader
  ledger_entries : List LedgerEntry
  balance_cache : List BalanceRow
  idempotency_log : List IdempotencyRow
  audit_log : List AuditRow
  now : Nat
  nextId : Nat
deriving DecidableEq, Repr

-- ===========================================================================
-- Errors and the retry driver (src/src/db.js)
-- ===========================================================================

/-- Errors thrown by the engine.  The constructors with a PostgreSQL error
code correspond to driver errors carrying `error.code`; the others are the
`new Error(message)` values thrown by transactionService.js. -/
inductive Err where
  | missingParams
  | nonPositiveAmount
  | assetNotFound (code : String)
  | userAccountNotFound (userId : String)
  | treasuryNotFound
  | bonusPoolNotFound
  | revenueNotFound
  | txnTypeNotFound (code : String)
  | insufficientTreasury
  | insufficientBonusPool
  | insufficientBalance (available required : Int)
  | uniqueViolation
  | checkViolation
  | serializationFailure
  | deadlockDetected
  | lockNotAvailable
deriving DecidableEq, Repr

/-- The PostgreSQL error code attached to a driver error, if any
(23505 unique_violation, 23514 check_violation, 40001, 40P01, 55P03). -/
def Err.pgCode : Err → Option String
  | .uniqueViolation => some "23505"
  | .checkViolation => some "23514"
  | .serializationFailure => some "40001"
  | .deadlockDetected => some "40P01"
  | .lockNotAvailable => some "55P03"
  | _ => none

/-- db.js line 92-94: `error.code === '40P01' || error.code === '40001' || error.code === '55P03'`. -/
def isRetriable (e : Err) : Bool :=
  e.pgCode == some "40P01" || e.pgCode == some "40001" || e.pgCode == some "55P03"

/-- The loop body of `executeWithRetry` (db.js lines 84-113): run attempt
`attempt`; on a retriable error with attempts remaining (`attempt <
maxRetries`), back off and retry, otherwise rethrow.  The second `Nat` is
the number of loop iterations still possible, as structural fuel; it is
always at least `maxRetries - attempt + 1`, so the fuel-0 fallback is never
reached.  The backoff sleep has no effect on the state model. -/
def retryFrom (f : Nat → Except Err α) (maxRetries : Nat) : Nat → Nat → Except Err α
  | attempt, fuel + 1 =>
    match f attempt with
    | .ok a => .ok a
    | .error e =>
      if isRetriable e = true ∧ attempt < maxRetries then
        retryFrom f maxRetries (attempt + 1) fuel
      else .error e
  | attempt, 0 => f attempt

/-- db.js `executeWithRetry(queryFunction, maxRetries = 3)`: attempts are
numbered from 1; `f` receives the attempt number (each real attempt re-runs
the query function, which may observe a different database). -/
def executeWithRetry (f : Nat → Except Err α) (maxRetries : Nat) : Except Err α :=
  retryFrom f maxRetries 1 maxRetries

-- ===========================================================================
-- Store lookups and writes
-- ===========================================================================

/-- Embeds `SELECT id FROM asset_types WHERE code = $1 AND is_active = true`. -/
def findAsset (st : DB) (code : String) : Option AssetType :=
  st.asset_types.find? (fun a => a.code == code && a.is_active)

/-- Embeds `SELECT id FROM accounts WHERE user_id = $1 AND is_active = true`. -/
def findUserAccount (st : DB) (userId : String) : Option Account :=
  st.accounts.find? (fun a => a.user_id == some userId && a.is_active)

/-- Embeds `SELECT a.id FROM accounts a JOIN account_types at ON ... WHERE at.code = $code AND a.is_active = true`. -/
def findSystemAccount (st : DB) (typeCode : String) : Option Account :=
  st.accounts.find? (fun a => a.account_type_code == typeCode && a.is_active)

/-- Embeds `SELECT id FROM transaction_types WHERE code = $1`. -/
def findTxnType (st : DB) (code : String) : Option TransactionType :=
  st.transaction_types.find? (fun t => t.code == code)

/-- Source `_getBalance`: `SELECT balance FROM balance_cache WHERE account_id = $1 AND asset_type_id = $2`;
a missing row reads as 0. -/
def _getBalance (st : DB) (accountId assetTypeId : Nat) : Int :=
  match st.balance_cache.find? (fun r => r.account_id == accountId && r.asset_type_id == assetTypeId) with
  | some r => r.balance
  | none => 0

/-- Source `_checkIdempotency`: `SELECT response_data, status FROM idempotency_log
WHERE idempotency_key = $1 AND expires_at > CURRENT_TIMESTAMP`, then return
`response_data` only when a row was found with status 'completed'. -/
def _checkIdempotency (st : DB) (idempotencyKey : String) : Option Response :=
  match st.idempotency_log.find? (fun r => r.idempotency_key == idempotencyKey && st.now < r.expires_at) with
  | some r => if r.status == "completed" then some r.response_data else none
  | none => none

/-- Embeds `INSERT INTO transactions ...` under the schema constraints: the unique
index on `idempotency_key` (idx_transactions_idempotency), `CHECK (amount > 0)`,
and `CHECK (status IN ('pending','completed','failed','reversed'))`. -/
def insertHeader (st : DB) (h : TransactionHeader) : Except Err DB :=
  if st.transactions.any (fun t => t.idempotency_key == h.idempotency_key) then
    .error .uniqueViolation
  else if h.amount ≤ 0 then
    .error .checkViolation
  else if ¬ (h.status = "pending" ∨ h.status = "completed" ∨ h.status = "failed" ∨ h.status = "reversed") then
    .error .checkViolation
  else
    .ok { st with transactions := st.transactions ++ [h] }

/-- Embeds `INSERT INTO ledger_entries ...` under `CHECK (amount > 0)`. -/
def insertLedgerEntry (st : DB) (e : LedgerEntry) : Except Err DB :=
  if e.amount ≤ 0 then .error .checkViolation
  else .ok { st with ledger_entries := st.ledger_entries ++ [e] }

/-- The list-level effect of the balance-cache upsert
(`INSERT ... ON CONFLICT (account_id, asset_type_id) DO UPDATE SET ...`). -/
def upsertCache (bc : List BalanceRow) (accountId assetTypeId : Nat) (newBalance : Int)
    (txnId : Nat) : List BalanceRow :=
  if bc.any (fun r => r.account_id == accountId && r.asset_type_id == assetTypeId) then
    bc.map (fun r =>
      if r.account_id == accountId && r.asset_type_id == assetTypeId then
        { r with balance := newBalance, last_transaction_id := some txnId }
      else r)
  else
    bc ++ [⟨accountId, assetTypeId, newBalance, some txnId⟩]

/-- Source `_updateBalanceCache` under the schema constraint `CHECK (balance >= 0)`. -/
def _updateBalanceCache (st : DB) (accountId assetTypeId : Nat) (newBalance : Int)
    (txnId : Nat) : Except Err DB :=
  if newBalance < 0 then .error .checkViolation
  else .ok { st with balance_cache := upsertCache st.balance_cache accountId assetTypeId newBalance txnId }

/-- Embeds `INSERT INTO idempotency_log ...` under the primary key on `idempotency_key`.
`expires_at` is `CURRENT_TIMESTAMP + INTERVAL '24 hours'`. -/
def insertIdempotencyLog (st : DB) (row : IdempotencyRow) : Except Err DB :=
  if st.idempotency_log.any (fun r => r.idempotency_key == row.idempotency_key) then
    .error .uniqueViolation
  else .ok { st with idempotency_log := st.idempotency_log ++ [row] }

/-- Source `_createAuditLog`: `INSERT INTO audit_log (transaction_id, account_id, action, request_data)`. -/
def _createAuditLog (st : DB) (txnId accountId : Nat) (act : String) : DB :=
  { st with audit_log := st.audit_log ++ [⟨txnId, accountId, act⟩] }

/-- Embeds `_hashRequest({userId, assetCode, amount})`. -/
def _hashRequest (userId assetCode : String) (amount : Int) : RequestHash :=
  ⟨userId, assetCode, amount⟩

-- ===========================================================================
-- Observable step trace of one transaction body
-- ===========================================================================

/-- The observable steps a transaction body performs, in program order:
row locks taken (`FOR UPDATE NOWAIT`), header insertion, the per-operation
balance precondition check, ledger-entry insertion, cache upsert,
idempotency-log insertion and audit-log insertion. -/
inductive Event where
  | lockAcquired (accountId : Nat)
  | headerInserted
  | balanceChecked
  | entryInserted (et : EntryType)
  | cacheUpdated (accountId : Nat)
  | idempotencyRecorded
  | auditLogged
deriving DecidableEq, Repr

/-- The account ids locked during a run, in acquisition order. -/
def locksOf (tr : List Event) : List Nat :=
  tr.filterMap (fun e => match e with | .lockAcquired a => some a | _ => none)

/-- JS `[a, b].sort()` on the two account ids. -/
def sortPair (a b : Nat) : List Nat := if a ≤ b then [a, b] else [b, a]

/-- Lock acquisition order of `_executeTopUpTransaction` (lines 90-133): the
user account row is locked by its `SELECT ... FOR UPDATE NOWAIT`, then
`accountIds = [user, treasury].sort()` and each element different from the
user account is locked in turn. -/
def topUpLockSeq (userAccountId treasuryAccountId : Nat) : List Nat :=
  let accountIds := sortPair userAccountId treasuryAccountId
  [userAccountId]
    ++ (if accountIds.head! ≠ userAccountId then [accountIds.head!] else [])
    ++ (if accountIds.getLast! ≠ userAccountId then [accountIds.getLast!] else [])

/-- Lock acquisition order of `SELECT id FROM accounts WHERE id = ANY($1)
ORDER BY id FOR UPDATE NOWAIT` over the sorted pair (issueBonus, purchase):
the distinct matching rows, in ascending id order. -/
def orderedLockSeq (a b : Nat) : List Nat := (sortPair a b).dedup

-- ===========================================================================
-- The three transaction bodies (BEGIN ... COMMIT/ROLLBACK)
-- ===========================================================================

/-- Source `_executeTopUpTransaction` (transactionService.js lines 65-293).  Returns
the trace of observable steps and either the error that forced the ROLLBACK
(the pre-state persists) or the committed post-state with the response. -/
def _executeTopUpTransaction (st : DB) (userId assetCode : String) (amount : Int)
    (idempotencyKey : String) (md : Metadata) :
    List Event × Except Err (DB × Response) :=
  match findAsset st assetCode with
  | none => ([], .error (.assetNotFound assetCode))
  | some asset =>
  match findUserAccount st userId with
  | none => ([], .error (.userAccountNotFound userId))
  | some userAcct =>
  match findSystemAccount st "SYSTEM_TREASURY" with
  | none => ([.lockAcquired userAcct.id], .error .treasuryNotFound)
  | some treasury =>
  let locks := (topUpLockSeq userAcct.id treasury.id).map Event.lockAcquired
  match findTxnType st "TOP_UP" with
  | none => (locks, .error (.txnTypeNotFound "TOP_UP"))
  | some txnType =>
  let transactionId := st.nextId
  let descr := md.description.getD ("Top-up " ++ toString amount ++ " " ++ assetCode)
  match insertHeader { st with nextId := st.nextId + 1 }
      ⟨transactionId, idempotencyKey, txnType.id, asset.id, amount, descr,
        "completed", some st.now⟩ with
  | .error e => (locks, .error e)
  | .ok st1 =>
  let treasuryBalance := _getBalance st1 treasury.id asset.id
  let userBalance := _getBalance st1 userAcct.id asset.id
  let tr1 := locks ++ [.headerInserted, .balanceChecked]
  if treasuryBalance < amount then (tr1, .error .insufficientTreasury)
  else
  let newTreasuryBalance := treasuryBalance - amount
  let newUserBalance := userBalance + amount
  match insertLedgerEntry st1 ⟨transactionId, treasury.id, asset.id, .debit, amount,
      newTreasuryBalance, "Debit from treasury for user top-up"⟩ with
  | .error e => (tr1, .error e)
  | .ok st2 =>
  match insertLedgerEntry st2 ⟨transactionId, userAcct.id, asset.id, .credit, amount,
      newUserBalance, "Credit to user wallet"⟩ with
  | .error e => (tr1 ++ [.entryInserted .debit], .error e)
  | .ok st3 =>
  let tr2 := tr1 ++ [.entryInserted .debit, .entryInserted .credit]
  match _updateBalanceCache st3 treasury.id asset.id newTreasuryBalance transactionId with
  | .error e => (tr2, .error e)
  | .ok st4 =>
  match _updateBalanceCache st4 userAcct.id asset.id newUserBalance transactionId with
  | .error e => (tr2 ++ [.cacheUpdated treasury.id], .error e)
  | .ok st5 =>
  let tr3 := tr2 ++ [.cacheUpdated treasury.id, .cacheUpdated userAcct.id]
  let responseData : Response :=
    ⟨transactionId, userId, assetCode, amount, newUserBalance, none, none, st.now⟩
  match insertIdempotencyLog st5 ⟨idempotencyKey, _hashRequest userId assetCode amount,
      responseData, "completed", st.now + 86400⟩ with
  | .error e => (tr3, .error e)
  | .ok st6 =>
  let st7 := _createAuditLog st6 transactionId userAcct.id "TOP_UP"
  (tr3 ++ [.idempotencyRecorded, .auditLogged], .ok (st7, responseData))

/-- Source `_executeIssueBonusTransaction` (transactionService.js lines 346-558). -/
def _executeIssueBonusTransaction (st : DB) (userId assetCode : String) (amount : Int)
    (idempotencyKey : String) (md : Metadata) :
    List Event × Except Err (DB × Response) :=
  match findAsset st assetCode with
  | none => ([], .error (.assetNotFound assetCode))
  | some asset =>
  match findUserAccount st userId with
  | none => ([], .error (.userAccountNotFound userId))
  | some userAcct =>
  match findSystemAccount st "SYSTEM_BONUS" with
  | none => ([], .error .bonusPoolNotFound)
  | some bonusPool =>
  let locks := (orderedLockSeq userAcct.id bonusPool.id).map Event.lockAcquired
  match findTxnType st "BONUS" with
  | none => (locks, .error (.txnTypeNotFound "BONUS"))
  | some txnType =>
  let transactionId := st.nextId
  let descr := md.reason.getD ("Bonus " ++ toString amount ++ " " ++ assetCode)
  match insertHeader { st with nextId := st.nextId + 1 }
      ⟨transactionId, idempotencyKey, txnType.id, asset.id, amount, descr,
        "completed", some st.now⟩ with
  | .error e => (locks, .error e)
  | .ok st1 =>
  let bonusPoolBalance := _getBalance st1 bonusPool.id asset.id
  let userBalance := _getBalance st1 userAcct.id asset.id
  let tr1 := locks ++ [.headerInserted, .balanceChecked]
  if bonusPoolBalance < amount then (tr1, .error .insufficientBonusPool)
  else
  let newBonusPoolBalance := bonusPoolBalance - amount
  let newUserBalance := userBalance + amount
  match insertLedgerEntry st1 ⟨transactionId, bonusPool.id, asset.id, .debit, amount,
      newBonusPoolBalance, "Debit from bonus pool"⟩ with
  | .error e => (tr1, .error e)
  | .ok st2 =>
  match insertLedgerEntry st2 ⟨transactionId, userAcct.id, asset.id, .credit, amount,
      newUserBalance, "Bonus credit to user"⟩ with
  | .error e => (tr1 ++ [.entryInserted .debit], .error e)
  | .ok st3 =>
  let tr2 := tr1 ++ [.entryInserted .debit, .entryInserted .credit]
  match _updateBalanceCache st3 bonusPool.id asset.id newBonusPoolBalance transactionId with
  | .error e => (tr2, .error e)
  | .ok st4 =>
  match _updateBalanceCache st4 userAcct.id asset.id newUserBalance transactionId with
  | .error e => (tr2 ++ [.cacheUpdated bonusPool.id], .error e)
  | .ok st5 =>
  let tr3 := tr2 ++ [.cacheUpdated bonusPool.id, .cacheUpdated userAcct.id]
  let responseData : Response :=
    ⟨transactionId, userId, assetCode, amount, newUserBalance, md.reason, none, st.now⟩
  match insertIdempotencyLog st5 ⟨idempotencyKey, _hashRequest userId assetCode amount,
      responseData, "completed", st.now + 86400⟩ with
  | .error e => (tr3, .error e)
  | .ok st6 =>
  let st7 := _createAuditLog st6 transactionId userAcct.id "BONUS"
  (tr3 ++ [.idempotencyRecorded, .auditLogged], .ok (st7, responseData))

/-- Source `_executePurchaseTransaction` (transactionService.js lines 612-829).
Unlike the other two bodies, the balance precondition is checked *before*
the transaction header is inserted. -/
def _executePurchaseTransaction (st : DB) (userId assetCode : String) (amount : Int)
    (idempotencyKey : String) (md : Metadata) :
    List Event × Except Err (DB × Response) :=
  match findAsset st assetCode with
  | none => ([], .error (.assetNotFound assetCode))
  | some asset =>
  match findUserAccount st userId with
  | none => ([], .error (.userAccountNotFound userId))
  | some userAcct =>
  match findSystemAccount st "SYSTEM_REVENUE" with
  | none => ([], .error .revenueNotFound)
  | some revenue =>
  let locks := (orderedLockSeq userAcct.id revenue.id).map Event.lockAcquired
  match findTxnType st "PURCHASE" with
  | none => (locks, .error (.txnTypeNotFound "PURCHASE"))
  | some txnType =>
  let userBalance := _getBalance st userAcct.id asset.id
  let tr0 := locks ++ [.balanceChecked]
  if userBalance < amount then (tr0, .error (.insufficientBalance userBalance amount))
  else
  let transactionId := st.nextId
  let descr := match md.itemName with
    | some itemName => "Purchase " ++ itemName ++ " for " ++ toString amount ++ " " ++ assetCode
    | none => "Purchase for " ++ toString amount ++ " " ++ assetCode
  match insertHeader { st with nextId := st.nextId + 1 }
      ⟨transactionId, idempotencyKey, txnType.id, asset.id, amount, descr,
        "completed", some st.now⟩ with
  | .error e => (tr0, .error e)
  | .ok st1 =>
  let revenueBalance := _getBalance st1 revenue.id asset.id
  let newUserBalance := userBalance - amount
  let newRevenueBalance := revenueBalance + amount
  let tr1 := tr0 ++ [.headerInserted]
  match insertLedgerEntry st1 ⟨transactionId, userAcct.id, asset.id, .debit, amount,
      newUserBalance, "Debit from user for purchase"⟩ with
  | .error e => (tr1, .error e)
  | .ok st2 =>
  match insertLedgerEntry st2 ⟨transactionId, revenue.id, asset.id, .credit, amount,
      newRevenueBalance, "Revenue from user purchase"⟩ with
  | .error e => (tr1 ++ [.entryInserted .debit], .error e)
  | .ok st3 =>
  let tr2 := tr1 ++ [.entryInserted .debit, .entryInserted .credit]
  match _updateBalanceCache st3 userAcct.id asset.id newUserBalance transactionId with
  | .error e => (tr2, .error e)
  | .ok st4 =>
  match _updateBalanceCache st4 revenue.id asset.id newRevenueBalance transactionId with
  | .error e => (tr2 ++ [.cacheUpdated userAcct.id], .error e)
  | .ok st5 =>
  let tr3 := tr2 ++ [.cacheUpdated userAcct.id, .cacheUpdated revenue.id]
  let responseData : Response :=
    ⟨transactionId, userId, assetCode, amount, newUserBalance, none,
      md.itemName.or md.itemId, st.now⟩
  match insertIdempotencyLog st5 ⟨idempotencyKey, _hashRequest userId assetCode amount,
      responseData, "completed", st.now + 86400⟩ with
  | .error e => (tr3, .error e)
  | .ok st6 =>
  let st7 := _createAuditLog st6 transactionId userAcct.id "PURCHASE"
  (tr3 ++ [.idempotencyRecorded, .auditLogged], .ok (st7, responseData))

-- ===========================================================================
-- Public operations: validation, fast-path idempotency lookup, retry driver
-- ===========================================================================

/-- Source `topUp` (lines 23-59), decomposed over two snapshots: the fast-path
idempotency lookup runs outside the transaction ("Check idempotency first
(outside transaction) for performance") and therefore reads the database as
of `stLookup`; the transaction bodies run later against `stExec`.  JS falsy
checks make `amount = 0` a missing parameter. -/
def topUpFromStates (stLookup stExec : DB) (userId assetCode : String) (amount : Int)
    (idempotencyKey : String) (md : Metadata) : Except Err (DB × Response) :=
  if userId = "" ∨ assetCode = "" ∨ amount = 0 ∨ idempotencyKey = "" then .error .missingParams
  else if amount ≤ 0 then .error .nonPositiveAmount
  else
    match _checkIdempotency stLookup idempotencyKey with
    | some cached => .ok (stExec, cached)
    | none =>
      executeWithRetry
        (fun _ => (_executeTopUpTransaction stExec userId assetCode amount idempotencyKey md).2) 3

/-- Source `topUp` in the absence of interleaved writers: both snapshots coincide. -/
def topUp (st : DB) (userId assetCode : String) (amount : Int)
    (idempotencyKey : String) (md : Metadata) : Except Err (DB × Response) :=
  topUpFromStates st st userId assetCode amount idempotencyKey md

/-- Source `issueBonus` (lines 305-341), decomposed over two snapshots like `topUpFromStates`. -/
def issueBonusFromStates (stLookup stExec : DB) (userId assetCode : String) (amount : Int)
    (idempotencyKey : String) (md : Metadata) : Except Err (DB × Response) :=
  if userId = "" ∨ assetCode = "" ∨ amount = 0 ∨ idempotencyKey = "" then .error .missingParams
  else if amount ≤ 0 then .error .nonPositiveAmount
  else
    match _checkIdempotency stLookup idempotencyKey with
    | some cached => .ok (stExec, cached)
    | none =>
      executeWithRetry
        (fun _ => (_executeIssueBonusTransaction stExec userId assetCode amount idempotencyKey md).2) 3

/-- Source `issueBonus` in the absence of interleaved writers. -/
def issueBonus (st : DB) (userId assetCode : String) (amount : Int)
    (idempotencyKey : String) (md : Metadata) : Except Err (DB × Response) :=
  issueBonusFromStates st st userId assetCode amount idempotencyKey md

/-- Source `purchase` (lines 571-607), decomposed over two snapshots like `topUpFromStates`. -/
def purchaseFromStates (stLookup stExec : DB) (userId assetCode : String) (amount : Int)
    (idempotencyKey : String) (md : Metadata) : Except Err (DB × Response) :=
  if userId = "" ∨ assetCode = "" ∨ amount = 0 ∨ idempotencyKey = "" then .error .missingParams
  else if amount ≤ 0 then .error .nonPositiveAmount
  else
    match _checkIdempotency stLookup idempotencyKey with
    | some cached => .ok (stExec, cached)
    | none =>
      executeWithRetry
        (fun _ => (_executePurchaseTransaction stExec userId assetCode amount idempotencyKey md).2) 3

/-- Source `purchase` in the absence of interleaved writers. -/
def purchase (st : DB) (userId assetCode : String) (amount : Int)
    (idempotencyKey : String) (md : Metadata) : Except Err (DB × Response) :=
  purchaseFromStates st st userId assetCode amount idempotencyKey md

-- ===========================================================================
-- Uniform view of the three operations
-- ===========================================================================

/-- Which of the three movement operations is invoked. -/
inductive OpKind where
  | topUpOp
  | bonusOp
  | purchaseOp
deriving DecidableEq, Repr

/-- Dispatch to the public operation. -/
def runOp : OpKind → DB → String → String → Int → String → Metadata → Except Err (DB × Response)
  | .topUpOp => topUp
  | .bonusOp => issueBonus
  | .purchaseOp => purchase

/-- Dispatch to the transaction body (trace and result). -/
def runExec : OpKind → DB → String → String → Int → String → Metadata →
    List Event × Except Err (DB × Response)
  | .topUpOp => _executeTopUpTransaction
  | .bonusOp => _executeIssueBonusTransaction
  | .purchaseOp => _executePurchaseTransaction

/-- The `account_types.code` of the system counterparty each operation resolves. -/
def counterpartyCode : OpKind → String
  | .topUpOp => "SYSTEM_TREASURY"
  | .bonusOp => "SYSTEM_BONUS"
  | .purchaseOp => "SYSTEM_REVENUE"

/-- The `transaction_types.code` each operation resolves. -/
def txnTypeCode : OpKind → String
  | .topUpOp => "TOP_UP"
  | .bonusOp => "BONUS"
  | .purchaseOp => "PURCHASE"

/-- The account debited by the movement: the user for a purchase, the system
counterparty (treasury / bonus pool) otherwise. -/
def sourceOf : OpKind → Account → Account → Account
  | .purchaseOp, u, _ => u
  | _, _, c => c

/-- The account credited by the movement. -/
def destOf : OpKind → Account → Account → Account
  | .purchaseOp, _, c => c
  | _, u, _ => u

/-- The `InsufficientFunds`-class error each operation raises. -/
def insufficientErr (k : OpKind) (available required : Int) : Err :=
  match k with
  | .topUpOp => .insufficientTreasury
  | .bonusOp => .insufficientBonusPool
  | .purchaseOp => .insufficientBalance available required

/-- The try/catch around each transaction body: on success the COMMIT makes
the new state current; on any error the catch block issues ROLLBACK and
rethrows, so the pre-state persists (transactionService.js lines 280-292,
546-557, 817-828). -/
def execOutcome (k : OpKind) (st : DB) (userId assetCode : String) (amount : Int)
    (idempotencyKey : String) (md : Metadata) : DB × Except Err Response :=
  match (runExec k st userId assetCode amount idempotencyKey md).2 with
  | .ok (st', r) => (st', .ok r)
  | .error e => (st, .error e)

/-- Runs `n` further invocations of the same operation with the same arguments,
threading the database (a failed call leaves the state unchanged,
per `execOutcome` rollback semantics). -/
def callsAfter (k : OpKind) (userId assetCode : String) (amount : Int)
    (idempotencyKey : String) (md : Metadata) : Nat → DB → DB
  | 0, st => st
  | n + 1, st =>
    match runOp k st userId assetCode amount idempotencyKey md with
    | .ok (st', _) => callsAfter k userId assetCode amount idempotencyKey md n st'
    | .error _ => callsAfter k userId assetCode amount idempotencyKey md n st

-- ===========================================================================
-- Schema-level invariants of a database state
-- ===========================================================================

/-- UUID freshness: every persisted transaction id is below the generator. -/
def freshIds (st : DB) : Prop :=
  (∀ e ∈ st.ledger_entries, e.transaction_id < st.nextId) ∧
  (∀ h ∈ st.transactions, h.id < st.nextId)

/-- The `CHECK (balance >= 0)` constraint of `balance_cache`. -/
def cacheNonneg (st : DB) : Prop := ∀ r ∈ st.balance_cache, 0 ≤ r.balance

/-- The idempotency key is used by no transaction header and no
idempotency-log row of the state. -/
def keyUnused (st : DB) (key : String) : Prop :=
  (∀ t ∈ st.transactions, t.idempotency_key ≠ key) ∧
  (∀ r ∈ st.idempotency_log, r.idempotency_key ≠ key)

/-- Signed contribution of one ledger entry to its account's balance:
`+amount` for a credit, `-amount` for a debit. -/
def entryDelta (e : LedgerEntry) : Int :=
  match e.entry_type with
  | .credit => e.amount
  | .debit => -e.amount

/-- Sum `Σ credits − Σ debits` over the entries of `(account, asset)` in a list. -/
def entrySumL (l : List LedgerEntry) (accountId assetTypeId : Nat) : Int :=
  ((l.filter (fun e => e.account_id == accountId && e.asset_type_id == assetTypeId)).map
    entryDelta).sum

/-- Sum `Σ credits − Σ debits` over all committed entries of `(account, asset)`. -/
def entrySum (st : DB) (accountId assetTypeId : Nat) : Int :=
  entrySumL st.ledger_entries accountId assetTypeId

/-- The balance cache agrees with the ledger on every `(account, asset)`. -/
def cacheConsistent (st : DB) : Prop :=
  ∀ accountId assetTypeId, _getBalance st accountId assetTypeId = entrySum st accountId assetTypeId

-- ===========================================================================
-- Retry-driver lemmas
-- ===========================================================================

theorem retryFrom_const (r : Except Err α) :
    ∀ (fuel n a : Nat), retryFrom (fun _ => r) n a fuel = r := by
  intro fuel
  induction fuel with
  | zero =>
    intro n a
    rfl
  | succ fuel ih =>
    intro n a
    cases r with
    | ok v => rfl
    | error e =>
      show (if isRetriable e = true ∧ a < n then
          retryFrom (fun _ => (.error e : Except Err α)) n (a + 1) fuel
        else .error e) = .error e
      by_cases hc : isRetriable e = true ∧ a < n
      · rw [if_pos hc]
        exact ih n (a + 1)
      · rw [if_neg hc]

/-- A query function whose result does not depend on the attempt number goes
through `executeWithRetry` unchanged: a success is returned, a retriable
error is retried until attempts are exhausted and then surfaced, a
non-retriable error is surfaced at once. -/
theorem executeWithRetry_const (r : Except Err α) (n : Nat) :
    executeWithRetry (fun _ => r) n = r :=
  retryFrom_const r n n 1

/-- A non-retriable error on the first attempt is surfaced immediately: no
second attempt is made, whatever later attempts would have produced. -/
theorem executeWithRetry_first_error (f : Nat → Except Err α) (e : Err)
    (hf : f 1 = .error e) (he : isRetriable e = false) (n : Nat) :
    executeWithRetry f n = .error e := by
  unfold executeWithRetry
  cases n with
  | zero => exact hf
  | succ m =>
    simp only [retryFrom, hf]
    rw [if_neg]
    intro hc
    rw [he] at hc
    exact absurd hc.1 (by simp)

-- ===========================================================================
-- Balance-cache lemmas
-- ===========================================================================

/-- Value read back from a cache list (missing row reads as 0). -/
def cacheVal (bc : List BalanceRow) (accountId assetTypeId : Nat) : Int :=
  match bc.find? (fun r => r.account_id == accountId && r.asset_type_id == assetTypeId) with
  | some r => r.balance
  | none => 0

theorem getBalance_eq_cacheVal (st : DB) (a t : Nat) :
    _getBalance st a t = cacheVal st.balance_cache a t := rfl

theorem cacheVal_cons (r : BalanceRow) (l : List BalanceRow) (a t : Nat) :
    cacheVal (r :: l) a t =
      if r.account_id == a && r.asset_type_id == t then r.balance else cacheVal l a t := by
  unfold cacheVal
  rw [List.find?_cons]
  cases h : (r.account_id == a && r.asset_type_id == t) <;> simp [h]

theorem cacheVal_upsert_self (bc : List BalanceRow) (a t : Nat) (v : Int) (x : Nat) :
    cacheVal (upsertCache bc a t v x) a t = v := by
  unfold upsertCache
  by_cases h : bc.any (fun r => r.account_id == a && r.asset_type_id == t) = true
  · rw [if_pos h]
    induction bc with
    | nil => simp at h
    | cons r l ih =>
      cases hr : (r.account_id == a && r.asset_type_id == t) with
      | true =>
        obtain ⟨ha, ht⟩ : r.account_id = a ∧ r.asset_type_id = t := by
          simpa [Bool.and_eq_true, beq_iff_eq] using hr
        rw [List.map_cons, if_pos hr, cacheVal_cons]
        simp [ha, ht]
      | false =>
        simp only [List.any_cons, hr, Bool.false_or] at h
        rw [List.map_cons, if_neg (by simp [hr]), cacheVal_cons, if_neg (by simp [hr])]
        exact ih h
  · rw [if_neg h]
    simp only [Bool.not_eq_true] at h
    rw [List.any_eq_false] at h
    unfold cacheVal
    rw [List.find?_append, List.find?_eq_none.2 h]
    simp

theorem cacheVal_upsert_other (bc : List BalanceRow) (a t a' t' : Nat) (v : Int) (x : Nat)
    (hne : ¬(a' = a ∧ t' = t)) :
    cacheVal (upsertCache bc a t v x) a' t' = cacheVal bc a' t' := by
  have hpnew : (((⟨a, t, v, some x⟩ : BalanceRow).account_id == a')
      && ((⟨a, t, v, some x⟩ : BalanceRow).asset_type_id == t')) = false := by
    simp only [Bool.and_eq_false_iff, beq_eq_false_iff_ne]
    by_cases ha : a = a'
    · right; intro ht; exact hne ⟨ha.symm, ht.symm⟩
    · left; exact ha
  unfold upsertCache
  by_cases h : bc.any (fun r => r.account_id == a && r.asset_type_id == t) = true
  · rw [if_pos h]
    clear h
    induction bc with
    | nil => rfl
    | cons r l ih =>
      cases hr : (r.account_id == a && r.asset_type_id == t) with
      | true =>
        have hr' : (r.account_id == a' && r.asset_type_id == t') = false := by
          simp only [Bool.and_eq_true, beq_iff_eq] at hr
          simp only [Bool.and_eq_false_iff, beq_eq_false_iff_ne]
          by_cases ha : r.account_id = a'
          · right; intro ht; exact hne ⟨ha.symm.trans hr.1, ht.symm.trans hr.2⟩
          · left; exact ha
        rw [List.map_cons, if_pos hr, cacheVal_cons, cacheVal_cons]
        rw [if_neg (show _ from fun hc => by simp [hr'] at hc)]
        rw [if_neg (by simp [hr'])]
        exact ih
      | false =>
        rw [List.map_cons, if_neg (by simp [hr]), cacheVal_cons, cacheVal_cons]
        cases hp : (r.account_id == a' && r.asset_type_id == t') with
        | true => simp [hp]
        | false =>
          rw [if_neg (by simp [hp]), if_neg (by simp [hp])]
          exact ih
  · rw [if_neg h]
    unfold cacheVal
    rw [List.find?_append]
    simp only [List.find?_cons, List.find?_nil, hpnew]
    cases bc.find? (fun r => r.account_id == a' && r.asset_type_id == t') <;> rfl

-- ===========================================================================
-- Explicit form of the committed state of each successful movement
-- ===========================================================================

/-- The database state after COMMIT of one movement: header appended, the
debit and credit entries appended (in that order), the cache upserted for
the source and then the destination, the idempotency row and the audit row
appended, and the UUID counter advanced. -/
def commitState (st : DB) (hdr : TransactionHeader) (d cr : LedgerEntry)
    (srcId dstId assetId : Nat) (newSrcBal newDstBal : Int)
    (row : IdempotencyRow) (auditAcct : Nat) (act : String) : DB :=
  { st with
    nextId := st.nextId + 1
    transactions := st.transactions ++ [hdr]
    ledger_entries := st.ledger_entries ++ [d, cr]
    balance_cache := upsertCache (upsertCache st.balance_cache srcId assetId newSrcBal hdr.id)
      dstId assetId newDstBal hdr.id
    idempotency_log := st.idempotency_log ++ [row]
    audit_log := st.audit_log ++ [⟨hdr.id, auditAcct, act⟩] }

/-- Result (state and response) of a successful `_executeTopUpTransaction`
resolving `asset`, user account `u`, treasury `c` and transaction type `tt`. -/
def topUpCommit (st : DB) (userId assetCode : String) (amount : Int) (key : String)
    (md : Metadata) (asset : AssetType) (u c : Account) (tt : TransactionType) : DB × Response :=
  let tb := _getBalance st c.id asset.id
  let ub := _getBalance st u.id asset.id
  let hdr : TransactionHeader := ⟨st.nextId, key, tt.id, asset.id, amount,
    md.description.getD ("Top-up " ++ toString amount ++ " " ++ assetCode), "completed", some st.now⟩
  let d : LedgerEntry := ⟨st.nextId, c.id, asset.id, .debit, amount, tb - amount,
    "Debit from treasury for user top-up"⟩
  let cr : LedgerEntry := ⟨st.nextId, u.id, asset.id, .credit, amount, ub + amount,
    "Credit to user wallet"⟩
  let resp : Response := ⟨st.nextId, userId, assetCode, amount, ub + amount, none, none, st.now⟩
  let row : IdempotencyRow := ⟨key, _hashRequest userId assetCode amount, resp, "completed",
    st.now + 86400⟩
  (commitState st hdr d cr c.id u.id asset.id (tb - amount) (ub + amount) row u.id "TOP_UP", resp)

/-- Result of a successful `_executeIssueBonusTransaction`. -/
def bonusCommit (st : DB) (userId assetCode : String) (amount : Int) (key : String)
    (md : Metadata) (asset : AssetType) (u c : Account) (tt : TransactionType) : DB × Response :=
  let pb := _getBalance st c.id asset.id
  let ub := _getBalance st u.id asset.id
  let hdr : TransactionHeader := ⟨st.nextId, key, tt.id, asset.id, amount,
    md.reason.getD ("Bonus " ++ toString amount ++ " " ++ assetCode), "completed", some st.now⟩
  let d : LedgerEntry := ⟨st.nextId, c.id, asset.id, .debit, amount, pb - amount,
    "Debit from bonus pool"⟩
  let cr : LedgerEntry := ⟨st.nextId, u.id, asset.id, .credit, amount, ub + amount,
    "Bonus credit to user"⟩
  let resp : Response := ⟨st.nextId, userId, assetCode, amount, ub + amount, md.reason, none, st.now⟩
  let row : IdempotencyRow := ⟨key, _hashRequest userId assetCode amount, resp, "completed",
    st.now + 86400⟩
  (commitState st hdr d cr c.id u.id asset.id (pb - amount) (ub + amount) row u.id "BONUS", resp)

/-- Result of a successful `_executePurchaseTransaction`. -/
def purchaseCommit (st : DB) (userId assetCode : String) (amount : Int) (key : String)
    (md : Metadata) (asset : AssetType) (u c : Account) (tt : TransactionType) : DB × Response :=
  let ub := _getBalance st u.id asset.id
  let rb := _getBalance st c.id asset.id
  let descr := match md.itemName with
    | some itemName => "Purchase " ++ itemName ++ " for " ++ toString amount ++ " " ++ assetCode
    | none => "Purchase for " ++ toString amount ++ " " ++ assetCode
  let hdr : TransactionHeader := ⟨st.nextId, key, tt.id, asset.id, amount, descr,
    "completed", some st.now⟩
  let d : LedgerEntry := ⟨st.nextId, u.id, asset.id, .debit, amount, ub - amount,
    "Debit from user for purchase"⟩
  let cr : LedgerEntry := ⟨st.nextId, c.id, asset.id, .credit, amount, rb + amount,
    "Revenue from user purchase"⟩
  let resp : Response := ⟨st.nextId, userId, assetCode, amount, ub - amount, none,
    md.itemName.or md.itemId, st.now⟩
  let row : IdempotencyRow := ⟨key, _hashRequest userId assetCode amount, resp, "completed",
    st.now + 86400⟩
  (commitState st hdr d cr u.id c.id asset.id (ub - amount) (rb + amount) row u.id "PURCHASE", resp)

/-- Success trace of the topUp / issueBonus bodies (header before check). -/
def headerFirstTrace (locks : List Nat) (srcId dstId : Nat) : List Event :=
  locks.map Event.lockAcquired ++
    [.headerInserted, .balanceChecked, .entryInserted .debit, .entryInserted .credit,
     .cacheUpdated srcId, .cacheUpdated dstId, .idempotencyRecorded, .auditLogged]

/-- Success trace of the purchase body (check before header). -/
def checkFirstTrace (locks : List Nat) (srcId dstId : Nat) : List Event :=
  locks.map Event.lockAcquired ++
    [.balanceChecked, .headerInserted, .entryInserted .debit, .entryInserted .credit,
     .cacheUpdated srcId, .cacheUpdated dstId, .idempotencyRecorded, .auditLogged]

theorem executeTopUp_success (st : DB) (userId assetCode : String) (amount : Int)
    (key : String) (md : Metadata) (asset : AssetType) (u c : Account) (tt : TransactionType)
    (hA : findAsset st assetCode = some asset)
    (hU : findUserAccount st userId = some u)
    (hC : findSystemAccount st "SYSTEM_TREASURY" = some c)
    (hT : findTxnType st "TOP_UP" = some tt)
    (hAmt : 0 < amount)
    (hKeyH : ∀ t2 ∈ st.transactions, t2.idempotency_key ≠ key)
    (hKeyI : ∀ r2 ∈ st.idempotency_log, r2.idempotency_key ≠ key)
    (hBal : amount ≤ _getBalance st c.id asset.id)
    (hUB : 0 ≤ _getBalance st u.id asset.id) :
    _executeTopUpTransaction st userId assetCode amount key md =
      (headerFirstTrace (topUpLockSeq u.id c.id) c.id u.id,
       .ok (topUpCommit st userId assetCode amount key md asset u c tt)) := by
  have hany1 : (st.transactions.any fun t2 => t2.idempotency_key == key) = false := by
    rw [List.any_eq_false]
    intro t2 ht2
    simpa using hKeyH t2 ht2
  have hany2 : (st.idempotency_log.any fun r2 => r2.idempotency_key == key) = false := by
    rw [List.any_eq_false]
    intro r2 hr2
    simpa using hKeyI r2 hr2
  have hnneg : ¬(amount ≤ 0) := by omega
  have hstat : ("completed" = "pending" ∨ "completed" = "completed" ∨
      "completed" = "failed" ∨ "completed" = "reversed") := Or.inr (Or.inl rfl)
  have hblt : ¬(cacheVal st.balance_cache c.id asset.id < amount) := by
    rw [getBalance_eq_cacheVal] at hBal
    omega
  have hub : 0 ≤ cacheVal st.balance_cache u.id asset.id := by
    rw [getBalance_eq_cacheVal] at hUB
    exact hUB
  have hsrc : ¬(cacheVal st.balance_cache c.id asset.id - amount < 0) := by
    rw [getBalance_eq_cacheVal] at hBal
    omega
  have hdst : ¬(cacheVal st.balance_cache u.id asset.id + amount < 0) := by omega
  have hnexH : ¬∃ x ∈ st.transactions, x.idempotency_key = key := by
    push_neg
    exact hKeyH
  have hnexI : ¬∃ x ∈ st.idempotency_log, x.idempotency_key = key := by
    push_neg
    exact hKeyI
  simp only [_executeTopUpTransaction, hA, hU, hC, hT, insertHeader, insertLedgerEntry,
    _updateBalanceCache, insertIdempotencyLog, _createAuditLog, getBalance_eq_cacheVal,
    hany1, hany2, hstat, topUpCommit, commitState, headerFirstTrace]
  simp [hnneg, hblt, hub, hsrc, hdst, hAmt, hnexH, hnexI, not_lt.2 (le_of_lt hAmt)]

theorem executeBonus_success (st : DB) (userId assetCode : String) (amount : Int)
    (key : String) (md : Metadata) (asset : AssetType) (u c : Account) (tt : TransactionType)
    (hA : findAsset st assetCode = some asset)
    (hU : findUserAccount st userId = some u)
    (hC : findSystemAccount st "SYSTEM_BONUS" = some c)
    (hT : findTxnType st "BONUS" = some tt)
    (hAmt : 0 < amount)
    (hKeyH : ∀ t2 ∈ st.transactions, t2.idempotency_key ≠ key)
    (hKeyI : ∀ r2 ∈ st.idempotency_log, r2.idempotency_key ≠ key)
    (hBal : amount ≤ _getBalance st c.id asset.id)
    (hUB : 0 ≤ _getBalance st u.id asset.id) :
    _executeIssueBonusTransaction st userId assetCode amount key md =
      (headerFirstTrace (orderedLockSeq u.id c.id) c.id u.id,
       .ok (bonusCommit st userId assetCode amount key md asset u c tt)) := by
  have hany1 : (st.transactions.any fun t2 => t2.idempotency_key == key) = false := by
    rw [List.any_eq_false]
    intro t2 ht2
    simpa using hKeyH t2 ht2
  have hnneg : ¬(amount ≤ 0) := by omega
  have hstat : ("completed" = "pending" ∨ "completed" = "completed" ∨
      "completed" = "failed" ∨ "completed" = "reversed") := Or.inr (Or.inl rfl)
  have hblt : ¬(cacheVal st.balance_cache c.id asset.id < amount) := by
    rw [getBalance_eq_cacheVal] at hBal
    omega
  have hub : 0 ≤ cacheVal st.balance_cache u.id asset.id := by
    rw [getBalance_eq_cacheVal] at hUB
    exact hUB
  have hsrc : ¬(cacheVal st.balance_cache c.id asset.id - amount < 0) := by
    rw [getBalance_eq_cacheVal] at hBal
    omega
  have hdst : ¬(cacheVal st.balance_cache u.id asset.id + amount < 0) := by omega
  have hnexH : ¬∃ x ∈ st.transactions, x.idempotency_key = key := by
    push_neg
    exact hKeyH
  have hnexI : ¬∃ x ∈ st.idempotency_log, x.idempotency_key = key := by
    push_neg
    exact hKeyI
  simp only [_executeIssueBonusTransaction, hA, hU, hC, hT, insertHeader, insertLedgerEntry,
    _updateBalanceCache, insertIdempotencyLog, _createAuditLog, getBalance_eq_cacheVal,
    hany1, hstat, bonusCommit, commitState, headerFirstTrace]
  simp [hnneg, hblt, hub, hsrc, hdst, hAmt, hnexH, hnexI, not_lt.2 (le_of_lt hAmt)]

theorem executePurchase_success (st : DB) (userId assetCode : String) (amount : Int)
    (key : String) (md : Metadata) (asset : AssetType) (u c : Account) (tt : TransactionType)
    (hA : findAsset st assetCode = some asset)
    (hU : findUserAccount st userId = some u)
    (hC : findSystemAccount st "SYSTEM_REVENUE" = some c)
    (hT : findTxnType st "PURCHASE" = some tt)
    (hAmt : 0 < amount)
    (hKeyH : ∀ t2 ∈ st.transactions, t2.idempotency_key ≠ key)
    (hKeyI : ∀ r2 ∈ st.idempotency_log, r2.idempotency_key ≠ key)
    (hBal : amount ≤ _getBalance st u.id asset.id)
    (hRB : 0 ≤ _getBalance st c.id asset.id) :
    _executePurchaseTransaction st userId assetCode amount key md =
      (checkFirstTrace (orderedLockSeq u.id c.id) u.id c.id,
       .ok (purchaseCommit st userId assetCode amount key md asset u c tt)) := by
  have hany1 : (st.transactions.any fun t2 => t2.idempotency_key == key) = false := by
    rw [List.any_eq_false]
    intro t2 ht2
    simpa using hKeyH t2 ht2
  have hnneg : ¬(amount ≤ 0) := by omega
  have hstat : ("completed" = "pending" ∨ "completed" = "completed" ∨
      "completed" = "failed" ∨ "completed" = "reversed") := Or.inr (Or.inl rfl)
  have hblt : ¬(cacheVal st.balance_cache u.id asset.id < amount) := by
    rw [getBalance_eq_cacheVal] at hBal
    omega
  have hrb : 0 ≤ cacheVal st.balance_cache c.id asset.id := by
    rw [getBalance_eq_cacheVal] at hRB
    exact hRB
  have hsrc : ¬(cacheVal st.balance_cache u.id asset.id - amount < 0) := by
    rw [getBalance_eq_cacheVal] at hBal
    omega
  have hdst : ¬(cacheVal st.balance_cache c.id asset.id + amount < 0) := by omega
  have hnexH : ¬∃ x ∈ st.transactions, x.idempotency_key = key := by
    push_neg
    exact hKeyH
  have hnexI : ¬∃ x ∈ st.idempotency_log, x.idempotency_key = key := by
    push_neg
    exact hKeyI
  simp only [_executePurchaseTransaction, hA, hU, hC, hT, insertHeader, insertLedgerEntry,
    _updateBalanceCache, insertIdempotencyLog, _createAuditLog, getBalance_eq_cacheVal,
    hany1, hstat, purchaseCommit, commitState, checkFirstTrace]
  simp [hnneg, hblt, hrb, hsrc, hdst, hAmt, hnexH, hnexI, not_lt.2 (le_of_lt hAmt)]

-- Error-path equations --------------------------------------------------------

theorem executeTopUp_insufficient (st : DB) (userId assetCode : String) (amount : Int)
    (key : String) (md : Metadata) (asset : AssetType) (u c : Account) (tt : TransactionType)
    (hA : findAsset st assetCode = some asset)
    (hU : findUserAccount st userId = some u)
    (hC : findSystemAccount st "SYSTEM_TREASURY" = some c)
    (hT : findTxnType st "TOP_UP" = some tt)
    (hAmt : 0 < amount)
    (hKeyH : ∀ t2 ∈ st.transactions, t2.idempotency_key ≠ key)
    (hBal : _getBalance st c.id asset.id < amount) :
    _executeTopUpTransaction st userId assetCode amount key md =
      ((topUpLockSeq u.id c.id).map Event.lockAcquired ++ [.headerInserted, .balanceChecked],
       .error .insufficientTreasury) := by
  have hany1 : (st.transactions.any fun t2 => t2.idempotency_key == key) = false := by
    rw [List.any_eq_false]
    intro t2 ht2
    simpa using hKeyH t2 ht2
  have hnneg : ¬(amount ≤ 0) := by omega
  have hstat : ("completed" = "pending" ∨ "completed" = "completed" ∨
      "completed" = "failed" ∨ "completed" = "reversed") := Or.inr (Or.inl rfl)
  have hblt : cacheVal st.balance_cache c.id asset.id < amount := by
    rw [getBalance_eq_cacheVal] at hBal
    exact hBal
  have hnexH : ¬∃ x ∈ st.transactions, x.idempotency_key = key := by
    push_neg
    exact hKeyH
  simp only [_executeTopUpTransaction, hA, hU, hC, hT, insertHeader,
    getBalance_eq_cacheVal, hany1, hstat]
  simp [hnneg, hblt, hnexH]

theorem executeBonus_insufficient (st : DB) (userId assetCode : String) (amount : Int)
    (key : String) (md : Metadata) (asset : AssetType) (u c : Account) (tt : TransactionType)
    (hA : findAsset st assetCode = some asset)
    (hU : findUserAccount st userId = some u)
    (hC : findSystemAccount st "SYSTEM_BONUS" = some c)
    (hT : findTxnType st "BONUS" = some tt)
    (hAmt : 0 < amount)
    (hKeyH : ∀ t2 ∈ st.transactions, t2.idempotency_key ≠ key)
    (hBal : _getBalance st c.id asset.id < amount) :
    _executeIssueBonusTransaction st userId assetCode amount key md =
      ((orderedLockSeq u.id c.id).map Event.lockAcquired ++ [.headerInserted, .balanceChecked],
       .error .insufficientBonusPool) := by
  have hany1 : (st.transactions.any fun t2 => t2.idempotency_key == key) = false := by
    rw [List.any_eq_false]
    intro t2 ht2
    simpa using hKeyH t2 ht2
  have hnneg : ¬(amount ≤ 0) := by omega
  have hstat : ("completed" = "pending" ∨ "completed" = "completed" ∨
      "completed" = "failed" ∨ "completed" = "reversed") := Or.inr (Or.inl rfl)
  have hblt : cacheVal st.balance_cache c.id asset.id < amount := by
    rw [getBalance_eq_cacheVal] at hBal
    exact hBal
  have hnexH : ¬∃ x ∈ st.transactions, x.idempotency_key = key := by
    push_neg
    exact hKeyH
  simp only [_executeIssueBonusTransaction, hA, hU, hC, hT, insertHeader,
    getBalance_eq_cacheVal, hany1, hstat]
  simp [hnneg, hblt, hnexH]

theorem executePurchase_insufficient (st : DB) (userId assetCode : String) (amount : Int)
    (key : String) (md : Metadata) (asset : AssetType) (u c : Account) (tt : TransactionType)
    (hA : findAsset st assetCode = some asset)
    (hU : findUserAccount st userId = some u)
    (hC : findSystemAccount st "SYSTEM_REVENUE" = some c)
    (hT : findTxnType st "PURCHASE" = some tt)
    (hBal : _getBalance st u.id asset.id < amount) :
    _executePurchaseTransaction st userId assetCode amount key md =
      ((orderedLockSeq u.id c.id).map Event.lockAcquired ++ [.balanceChecked],
       .error (.insufficientBalance (_getBalance st u.id asset.id) amount)) := by
  have hblt : cacheVal st.balance_cache u.id asset.id < amount := by
    rw [getBalance_eq_cacheVal] at hBal
    exact hBal
  simp only [_executePurchaseTransaction, hA, hU, hC, hT, getBalance_eq_cacheVal]
  simp [hblt]

theorem executeTopUp_dupKey (st : DB) (userId assetCode : String) (amount : Int)
    (key : String) (md : Metadata) (asset : AssetType) (u c : Account) (tt : TransactionType)
    (hA : findAsset st assetCode = some asset)
    (hU : findUserAccount st userId = some u)
    (hC : findSystemAccount st "SYSTEM_TREASURY" = some c)
    (hT : findTxnType st "TOP_UP" = some tt)
    (hDup : ∃ t2 ∈ st.transactions, t2.idempotency_key = key) :
    _executeTopUpTransaction st userId assetCode amount key md =
      ((topUpLockSeq u.id c.id).map Event.lockAcquired, .error .uniqueViolation) := by
  simp only [_executeTopUpTransaction, hA, hU, hC, hT, insertHeader]
  simp [hDup]

theorem executeBonus_dupKey (st : DB) (userId assetCode : String) (amount : Int)
    (key : String) (md : Metadata) (asset : AssetType) (u c : Account) (tt : TransactionType)
    (hA : findAsset st assetCode = some asset)
    (hU : findUserAccount st userId = some u)
    (hC : findSystemAccount st "SYSTEM_BONUS" = some c)
    (hT : findTxnType st "BONUS" = some tt)
    (hDup : ∃ t2 ∈ st.transactions, t2.idempotency_key = key) :
    _executeIssueBonusTransaction st userId assetCode amount key md =
      ((orderedLockSeq u.id c.id).map Event.lockAcquired, .error .uniqueViolation) := by
  simp only [_executeIssueBonusTransaction, hA, hU, hC, hT, insertHeader]
  simp [hDup]

theorem executePurchase_dupKey (st : DB) (userId assetCode : String) (amount : Int)
    (key : String) (md : Metadata) (asset : AssetType) (u c : Account) (tt : TransactionType)
    (hA : findAsset st assetCode = some asset)
    (hU : findUserAccount st userId = some u)
    (hC : findSystemAccount st "SYSTEM_REVENUE" = some c)
    (hT : findTxnType st "PURCHASE" = some tt)
    (hBal : amount ≤ _getBalance st u.id asset.id)
    (hDup : ∃ t2 ∈ st.transactions, t2.idempotency_key = key) :
    _executePurchaseTransaction st userId assetCode amount key md =
      ((orderedLockSeq u.id c.id).map Event.lockAcquired ++ [.balanceChecked],
       .error .uniqueViolation) := by
  have hblt : ¬(cacheVal st.balance_cache u.id asset.id < amount) := by
    rw [getBalance_eq_cacheVal] at hBal
    omega
  simp only [_executePurchaseTransaction, hA, hU, hC, hT, insertHeader, getBalance_eq_cacheVal]
  simp [hblt, hDup]

-- Wrapper-level lemmas --------------------------------------------------------

theorem topUpFromStates_exec (stL stE : DB) (userId assetCode : String) (amount : Int)
    (key : String) (md : Metadata)
    (hu : userId ≠ "") (ha : assetCode ≠ "") (hk : key ≠ "") (hAmt : 0 < amount)
    (hIdem : _checkIdempotency stL key = none) :
    topUpFromStates stL stE userId assetCode amount key md =
      (_executeTopUpTransaction stE userId assetCode amount key md).2 := by
  unfold topUpFromStates
  rw [if_neg (by push_neg; exact ⟨hu, ha, by omega, hk⟩)]
  rw [if_neg (by omega)]
  simp only [hIdem]
  exact executeWithRetry_const _ 3

theorem bonusFromStates_exec (stL stE : DB) (userId assetCode : String) (amount : Int)
    (key : String) (md : Metadata)
    (hu : userId ≠ "") (ha : assetCode ≠ "") (hk : key ≠ "") (hAmt : 0 < amount)
    (hIdem : _checkIdempotency stL key = none) :
    issueBonusFromStates stL stE userId assetCode amount key md =
      (_executeIssueBonusTransaction stE userId assetCode amount key md).2 := by
  unfold issueBonusFromStates
  rw [if_neg (by push_neg; exact ⟨hu, ha, by omega, hk⟩)]
  rw [if_neg (by omega)]
  simp only [hIdem]
  exact executeWithRetry_const _ 3

theorem purchaseFromStates_exec (stL stE : DB) (userId assetCode : String) (amount : Int)
    (key : String) (md : Metadata)
    (hu : userId ≠ "") (ha : assetCode ≠ "") (hk : key ≠ "") (hAmt : 0 < amount)
    (hIdem : _checkIdempotency stL key = none) :
    purchaseFromStates stL stE userId assetCode amount key md =
      (_executePurchaseTransaction stE userId assetCode amount key md).2 := by
  unfold purchaseFromStates
  rw [if_neg (by push_neg; exact ⟨hu, ha, by omega, hk⟩)]
  rw [if_neg (by omega)]
  simp only [hIdem]
  exact executeWithRetry_const _ 3

/-- With valid inputs and no unexpired idempotency record, each public
operation returns exactly the result of its transaction body. -/
theorem runOp_eq_exec (k : OpKind) (st : DB) (userId assetCode : String) (amount : Int)
    (key : String) (md : Metadata)
    (hu : userId ≠ "") (ha : assetCode ≠ "") (hk : key ≠ "") (hAmt : 0 < amount)
    (hIdem : _checkIdempotency st key = none) :
    runOp k st userId assetCode amount key md =
      (runExec k st userId assetCode amount key md).2 := by
  cases k with
  | topUpOp => exact topUpFromStates_exec st st userId assetCode amount key md hu ha hk hAmt hIdem
  | bonusOp => exact bonusFromStates_exec st st userId assetCode amount key md hu ha hk hAmt hIdem
  | purchaseOp => exact purchaseFromStates_exec st st userId assetCode amount key md hu ha hk hAmt hIdem

/-- With valid inputs and a cached unexpired completed idempotency record,
each public operation returns the cached response without touching the
database state. -/
theorem runOp_cached (k : OpKind) (st : DB) (userId assetCode : String) (amount : Int)
    (key : String) (md : Metadata) (r : Response)
    (hu : userId ≠ "") (ha : assetCode ≠ "") (hk : key ≠ "") (hAmt : 0 < amount)
    (hIdem : _checkIdempotency st key = some r) :
    runOp k st userId assetCode amount key md = .ok (st, r) := by
  have hval : ¬(userId = "" ∨ assetCode = "" ∨ amount = 0 ∨ key = "") := by
    push_neg
    exact ⟨hu, ha, by omega, hk⟩
  cases k with
  | topUpOp =>
    show topUp st userId assetCode amount key md = .ok (st, r)
    unfold topUp topUpFromStates
    rw [if_neg hval, if_neg (by omega)]
    simp only [hIdem]
  | bonusOp =>
    show issueBonus st userId assetCode amount key md = .ok (st, r)
    unfold issueBonus issueBonusFromStates
    rw [if_neg hval, if_neg (by omega)]
    simp only [hIdem]
  | purchaseOp =>
    show purchase st userId assetCode amount key md = .ok (st, r)
    unfold purchase purchaseFromStates
    rw [if_neg hval, if_neg (by omega)]
    simp only [hIdem]

-- ===========================================================================
-- Inversion: what any committed movement must look like
-- ===========================================================================

theorem insertHeader_ok (st : DB) (hh : TransactionHeader) (st1 : DB)
    (h : insertHeader st hh = .ok st1) :
    st1 = { st with transactions := st.transactions ++ [hh] } ∧ 0 < hh.amount ∧
      ∀ t2 ∈ st.transactions, t2.idempotency_key ≠ hh.idempotency_key := by
  unfold insertHeader at h
  split at h
  · exact absurd h (by simp)
  next hc1 =>
    split at h
    · exact absurd h (by simp)
    next hc2 =>
      split at h
      · exact absurd h (by simp)
      next hc3 =>
        injection h with h2
        refine ⟨h2.symm, by omega, fun t2 ht2 hk2 => hc1 ?_⟩
        exact List.any_eq_true.2 ⟨t2, ht2, by simp [hk2]⟩

theorem insertLedgerEntry_ok (st : DB) (e : LedgerEntry) (st1 : DB)
    (h : insertLedgerEntry st e = .ok st1) :
    st1 = { st with ledger_entries := st.ledger_entries ++ [e] } ∧ 0 < e.amount := by
  unfold insertLedgerEntry at h
  split at h
  · exact absurd h (by simp)
  next hc =>
    injection h with h2
    exact ⟨h2.symm, by omega⟩

theorem updateBalanceCache_ok (st : DB) (a t : Nat) (v : Int) (x : Nat) (st1 : DB)
    (h : _updateBalanceCache st a t v x = .ok st1) :
    st1 = { st with balance_cache := upsertCache st.balance_cache a t v x } ∧ 0 ≤ v := by
  unfold _updateBalanceCache at h
  split at h
  · exact absurd h (by simp)
  next hc =>
    injection h with h2
    exact ⟨h2.symm, by omega⟩

theorem insertIdempotencyLog_ok (st : DB) (row : IdempotencyRow) (st1 : DB)
    (h : insertIdempotencyLog st row = .ok st1) :
    st1 = { st with idempotency_log := st.idempotency_log ++ [row] } ∧
      ∀ r2 ∈ st.idempotency_log, r2.idempotency_key ≠ row.idempotency_key := by
  unfold insertIdempotencyLog at h
  split at h
  · exact absurd h (by simp)
  next hc =>
    injection h with h2
    refine ⟨h2.symm, fun r2 hr2 hk2 => hc ?_⟩
    exact List.any_eq_true.2 ⟨r2, hr2, by simp [hk2]⟩

/-- Everything a committed movement appends, read off the post-state: the
single new header (status completed, completed_at stamped, bearing the
idempotency key and the positive requested amount), the debit/credit pair
referencing it with the same amount and asset, the idempotency row storing
the returned response with a 24-hour expiry, and the facts that the key was
used by no pre-state header or idempotency row. -/
def MovementShape (st : DB) (amount : Int) (key : String) (st' : DB) (r : Response) : Prop :=
  0 < amount ∧ r.transactionId = st.nextId ∧ st'.now = st.now ∧ st'.nextId = st.nextId + 1 ∧
  (∀ t2 ∈ st.transactions, t2.idempotency_key ≠ key) ∧
  (∀ r2 ∈ st.idempotency_log, r2.idempotency_key ≠ key) ∧
  ∃ (hdr : TransactionHeader) (d cr : LedgerEntry) (row : IdempotencyRow),
    st'.transactions = st.transactions ++ [hdr] ∧
    st'.ledger_entries = st.ledger_entries ++ [d] ++ [cr] ∧
    st'.idempotency_log = st.idempotency_log ++ [row] ∧
    hdr.id = st.nextId ∧ hdr.idempotency_key = key ∧ hdr.amount = amount ∧
    hdr.status = "completed" ∧ hdr.completed_at = some st.now ∧
    d.transaction_id = st.nextId ∧ cr.transaction_id = st.nextId ∧
    d.entry_type = .debit ∧ cr.entry_type = .credit ∧
    d.amount = amount ∧ cr.amount = amount ∧
    d.asset_type_id = hdr.asset_type_id ∧ cr.asset_type_id = hdr.asset_type_id ∧
    row.idempotency_key = key ∧ row.status = "completed" ∧
    row.expires_at = st.now + 86400 ∧ row.response_data = r

theorem topUp_exec_shape (st : DB) (userId assetCode : String) (amount : Int)
    (key : String) (md : Metadata) (st' : DB) (r : Response)
    (h : (_executeTopUpTransaction st userId assetCode amount key md).2 = .ok (st', r)) :
    MovementShape st amount key st' r := by
  unfold _executeTopUpTransaction at h
  dsimp only at h
  split at h
  · simp at h
  next asset hA =>
  split at h
  · simp at h
  next u hU =>
  split at h
  · simp at h
  next c hC =>
  split at h
  · simp at h
  next tt hT =>
  split at h
  · simp at h
  next st1 hH =>
  split at h
  · simp at h
  next hnb =>
  split at h
  · simp at h
  next st2 hE1 =>
  split at h
  · simp at h
  next st3 hE2 =>
  split at h
  · simp at h
  next st4 hB1 =>
  split at h
  · simp at h
  next st5 hB2 =>
  split at h
  · simp at h
  next st6 hI =>
  obtain ⟨hH1, hHamt, hHkeys⟩ := insertHeader_ok _ _ _ hH
  subst hH1
  obtain ⟨hE1s, _⟩ := insertLedgerEntry_ok _ _ _ hE1
  subst hE1s
  obtain ⟨hE2s, _⟩ := insertLedgerEntry_ok _ _ _ hE2
  subst hE2s
  obtain ⟨hB1s, _⟩ := updateBalanceCache_ok _ _ _ _ _ _ hB1
  subst hB1s
  obtain ⟨hB2s, _⟩ := updateBalanceCache_ok _ _ _ _ _ _ hB2
  subst hB2s
  obtain ⟨hIs, hIkeys⟩ := insertIdempotencyLog_ok _ _ _ hI
  subst hIs
  simp only [_createAuditLog] at h
  injection h with hpair
  injection hpair with hst hr
  subst hst
  subst hr
  exact ⟨hHamt, rfl, rfl, rfl, hHkeys, hIkeys, _, _, _, _, rfl, rfl, rfl, rfl, rfl, rfl,
    rfl, rfl, rfl, rfl, rfl, rfl, rfl, rfl, rfl, rfl, rfl, rfl, rfl, rfl⟩

theorem bonus_exec_shape (st : DB) (userId assetCode : String) (amount : Int)
    (key : String) (md : Metadata) (st' : DB) (r : Response)
    (h : (_executeIssueBonusTransaction st userId assetCode amount key md).2 = .ok (st', r)) :
    MovementShape st amount key st' r := by
  unfold _executeIssueBonusTransaction at h
  dsimp only at h
  split at h
  · simp at h
  next asset hA =>
  split at h
  · simp at h
  next u hU =>
  split at h
  · simp at h
  next c hC =>
  split at h
  · simp at h
  next tt hT =>
  split at h
  · simp at h
  next st1 hH =>
  split at h
  · simp at h
  next hnb =>
  split at h
  · simp at h
  next st2 hE1 =>
  split at h
  · simp at h
  next st3 hE2 =>
  split at h
  · simp at h
  next st4 hB1 =>
  split at h
  · simp at h
  next st5 hB2 =>
  split at h
  · simp at h
  next st6 hI =>
  obtain ⟨hH1, hHamt, hHkeys⟩ := insertHeader_ok _ _ _ hH
  subst hH1
  obtain ⟨hE1s, _⟩ := insertLedgerEntry_ok _ _ _ hE1
  subst hE1s
  obtain ⟨hE2s, _⟩ := insertLedgerEntry_ok _ _ _ hE2
  subst hE2s
  obtain ⟨hB1s, _⟩ := updateBalanceCache_ok _ _ _ _ _ _ hB1
  subst hB1s
  obtain ⟨hB2s, _⟩ := updateBalanceCache_ok _ _ _ _ _ _ hB2
  subst hB2s
  obtain ⟨hIs, hIkeys⟩ := insertIdempotencyLog_ok _ _ _ hI
  subst hIs
  simp only [_createAuditLog] at h
  injection h with hpair
  injection hpair with hst hr
  subst hst
  subst hr
  exact ⟨hHamt, rfl, rfl, rfl, hHkeys, hIkeys, _, _, _, _, rfl, rfl, rfl, rfl, rfl, rfl,
    rfl, rfl, rfl, rfl, rfl, rfl, rfl, rfl, rfl, rfl, rfl, rfl, rfl, rfl⟩

theorem purchase_exec_shape (st : DB) (userId assetCode : String) (amount : Int)
    (key : String) (md : Metadata) (st' : DB) (r : Response)
    (h : (_executePurchaseTransaction st userId assetCode amount key md).2 = .ok (st', r)) :
    MovementShape st amount key st' r := by
  unfold _executePurchaseTransaction at h
  dsimp only at h
  split at h
  · simp at h
  next asset hA =>
  split at h
  · simp at h
  next u hU =>
  split at h
  · simp at h
  next c hC =>
  split at h
  · simp at h
  next tt hT =>
  split at h
  · simp at h
  next hnb =>
  split at h
  · simp at h
  next st1 hH =>
  split at h
  · simp at h
  next st2 hE1 =>
  split at h
  · simp at h
  next st3 hE2 =>
  split at h
  · simp at h
  next st4 hB1 =>
  split at h
  · simp at h
  next st5 hB2 =>
  split at h
  · simp at h
  next st6 hI =>
  obtain ⟨hH1, hHamt, hHkeys⟩ := insertHeader_ok _ _ _ hH
  subst hH1
  obtain ⟨hE1s, _⟩ := insertLedgerEntry_ok _ _ _ hE1
  subst hE1s
  obtain ⟨hE2s, _⟩ := insertLedgerEntry_ok _ _ _ hE2
  subst hE2s
  obtain ⟨hB1s, _⟩ := updateBalanceCache_ok _ _ _ _ _ _ hB1
  subst hB1s
  obtain ⟨hB2s, _⟩ := updateBalanceCache_ok _ _ _ _ _ _ hB2
  subst hB2s
  obtain ⟨hIs, hIkeys⟩ := insertIdempotencyLog_ok _ _ _ hI
  subst hIs
  simp only [_createAuditLog] at h
  injection h with hpair
  injection hpair with hst hr
  subst hst
  subst hr
  exact ⟨hHamt, rfl, rfl, rfl, hHkeys, hIkeys, _, _, _, _, rfl, rfl, rfl, rfl, rfl, rfl,
    rfl, rfl, rfl, rfl, rfl, rfl, rfl, rfl, rfl, rfl, rfl, rfl, rfl, rfl⟩

/-- Any committed movement, whichever of the three operations produced it,
has the canonical shape. -/
theorem exec_ok_shape (k : OpKind) (st : DB) (userId assetCode : String) (amount : Int)
    (key : String) (md : Metadata) (st' : DB) (r : Response)
    (h : (runExec k st userId assetCode amount key md).2 = .ok (st', r)) :
    MovementShape st amount key st' r := by
  cases k with
  | topUpOp => exact topUp_exec_shape st userId assetCode amount key md st' r h
  | bonusOp => exact bonus_exec_shape st userId assetCode amount key md st' r h
  | purchaseOp => exact purchase_exec_shape st userId assetCode amount key md st' r h

/-- A public operation only returns successfully on non-empty identifiers and
a strictly positive amount (the validation block of each operation). -/
theorem runOp_ok_inputs (k : OpKind) (st : DB) (userId assetCode : String) (amount : Int)
    (key : String) (md : Metadata) (p : DB × Response)
    (h : runOp k st userId assetCode amount key md = .ok p) :
    userId ≠ "" ∧ assetCode ≠ "" ∧ key ≠ "" ∧ 0 < amount := by
  have main : ∀ (q : Except Err (DB × Response)),
      (if userId = "" ∨ assetCode = "" ∨ amount = 0 ∨ key = "" then
          (.error .missingParams : Except Err (DB × Response))
        else if amount ≤ 0 then .error .nonPositiveAmount else q) = .ok p →
      userId ≠ "" ∧ assetCode ≠ "" ∧ key ≠ "" ∧ 0 < amount := by
    intro q hq
    by_cases h1 : (userId = "" ∨ assetCode = "" ∨ amount = 0 ∨ key = "")
    · rw [if_pos h1] at hq
      exact absurd hq (by simp)
    · rw [if_neg h1] at hq
      by_cases h2 : amount ≤ 0
      · rw [if_pos h2] at hq
        exact absurd hq (by simp)
      · push_neg at h1
        exact ⟨h1.1, h1.2.1, h1.2.2.2, by omega⟩
  cases k with
  | topUpOp => exact main _ h
  | bonusOp => exact main _ h
  | purchaseOp => exact main _ h

-- ===========================================================================
-- Idempotency-lookup lemmas
-- ===========================================================================

/-- A key used by no idempotency row is not found by the fast-path lookup. -/
theorem checkIdem_none_of_unused (st : DB) (key : String)
    (h : ∀ r2 ∈ st.idempotency_log, r2.idempotency_key ≠ key) :
    _checkIdempotency st key = none := by
  unfold _checkIdempotency
  rw [List.find?_eq_none.2 (fun x hx => by simp [h x hx])]

/-- A key whose rows are all expired (`expires_at ≤ now`) is not found by the
fast-path lookup: the expired record is treated as absent. -/
theorem checkIdem_none_of_expired (st : DB) (key : String)
    (h : ∀ r2 ∈ st.idempotency_log, r2.idempotency_key = key → r2.expires_at ≤ st.now) :
    _checkIdempotency st key = none := by
  unfold _checkIdempotency
  rw [List.find?_eq_none.2 ?_]
  intro x hx
  by_cases hk : x.idempotency_key = key
  · have := h x hx hk
    simp [hk]
    omega
  · simp [hk]

/-- After a movement appends its idempotency row, the fast-path lookup finds
exactly that row's stored response. -/
theorem checkIdem_after (st st1 : DB) (key : String) (row : IdempotencyRow)
    (hlog : st1.idempotency_log = st.idempotency_log ++ [row])
    (hnow : st1.now = st.now)
    (hold : ∀ r2 ∈ st.idempotency_log, r2.idempotency_key ≠ key)
    (hkey : row.idempotency_key = key) (hstatus : row.status = "completed")
    (hexp : row.expires_at = st.now + 86400) :
    _checkIdempotency st1 key = some row.response_data := by
  unfold _checkIdempotency
  rw [hlog, List.find?_append]
  rw [List.find?_eq_none.2 (fun x hx => by simp [hold x hx])]
  rw [List.find?_cons]
  have hp : (row.idempotency_key == key && decide (st1.now < row.expires_at)) = true := by
    rw [hkey, hexp, hnow]
    simp
  rw [hp]
  simp [hstatus]

-- ===========================================================================
-- Ledger-sum lemmas
-- ===========================================================================

theorem entrySumL_append (l1 l2 : List LedgerEntry) (a t : Nat) :
    entrySumL (l1 ++ l2) a t = entrySumL l1 a t + entrySumL l2 a t := by
  simp [entrySumL, List.filter_append]

theorem entrySumL_single_match (e : LedgerEntry) (a t : Nat)
    (h1 : e.account_id = a) (h2 : e.asset_type_id = t) :
    entrySumL [e] a t = entryDelta e := by
  simp [entrySumL, List.filter, h1, h2]

theorem entrySumL_single_nomatch (e : LedgerEntry) (a t : Nat)
    (h : ¬(e.account_id = a ∧ e.asset_type_id = t)) :
    entrySumL [e] a t = 0 := by
  have hp : (e.account_id == a && e.asset_type_id == t) = false := by
    simp only [Bool.and_eq_false_iff, beq_eq_false_iff_ne]
    by_cases h1 : e.account_id = a
    · right; exact fun h2 => h ⟨h1, h2⟩
    · left; exact h1
  simp [entrySumL, List.filter, hp]

theorem entrySumL_append_pair (l : List LedgerEntry) (d cr : LedgerEntry) (a t : Nat) :
    entrySumL (l ++ [d, cr]) a t =
      entrySumL l a t + entrySumL [d] a t + entrySumL [cr] a t := by
  have hsplit : l ++ [d, cr] = (l ++ [d]) ++ [cr] := by simp
  rw [hsplit, entrySumL_append, entrySumL_append]

/-- The schema constraint `balance_cache.balance >= 0` makes every cached
read non-negative (a missing row reads as 0). -/
theorem getBalance_nonneg (st : DB) (hNN : cacheNonneg st) (a t : Nat) :
    0 ≤ _getBalance st a t := by
  unfold _getBalance
  cases hf : st.balance_cache.find?
      (fun r => r.account_id == a && r.asset_type_id == t) with
  | none => simp
  | some r2 => exact hNN r2 (List.mem_of_find?_eq_some hf)

-- ===========================================================================
-- Trace lemmas
-- ===========================================================================

/-- Index of the first occurrence of an event in a trace. -/
def eventIdx (tr : List Event) (e : Event) : Nat := tr.findIdx (fun x => x == e)

theorem locksOf_append (e1 e2 : List Event) :
    locksOf (e1 ++ e2) = locksOf e1 ++ locksOf e2 := by
  simp [locksOf]

theorem locksOf_map_lockAcquired (l : List Nat) :
    locksOf (l.map Event.lockAcquired) = l := by
  induction l with
  | nil => rfl
  | cons a l ih => simpa [locksOf] using ih

theorem filterMap_lock_comp (l : List Nat) :
    List.filterMap ((fun e => match e with
      | Event.lockAcquired a => some a
      | _ => none) ∘ Event.lockAcquired) l = l := by
  induction l with
  | nil => rfl
  | cons a l ih => simp [List.filterMap_cons, ih]

theorem eventIdx_locks_append (l : List Nat) (evs : List Event) (e : Event)
    (he : ∀ a, e ≠ Event.lockAcquired a) :
    eventIdx (l.map Event.lockAcquired ++ evs) e = l.length + eventIdx evs e := by
  induction l with
  | nil => simp [eventIdx]
  | cons a l ih =>
    have hne : (Event.lockAcquired a == e) = false := by
      rw [beq_eq_false_iff_ne]
      exact fun hc => he a hc.symm
    simp only [List.map_cons, List.cons_append, eventIdx, List.findIdx_cons, hne, cond_false]
    have ih2 : (l.map Event.lockAcquired ++ evs).findIdx (fun x => x == e) =
        l.length + evs.findIdx (fun x => x == e) := ih
    rw [ih2]
    simp only [List.length_cons]
    omega

-- ===========================================================================
-- Filter helpers
-- ===========================================================================

theorem filter_new_entries (l : List LedgerEntry) (d cr : LedgerEntry) (n : Nat)
    (hl : ∀ e ∈ l, e.transaction_id < n)
    (hd : d.transaction_id = n) (hc : cr.transaction_id = n) :
    (l ++ [d] ++ [cr]).filter (fun e => e.transaction_id == n) = [d, cr] := by
  rw [List.filter_append, List.filter_append]
  have h1 : l.filter (fun e => e.transaction_id == n) = [] := by
    rw [List.filter_eq_nil_iff]
    intro e he
    have := hl e he
    simp
    omega
  rw [h1]
  simp [List.filter, hd, hc]

theorem filter_new_header (l : List TransactionHeader) (hdr : TransactionHeader) (key : String)
    (hl : ∀ t2 ∈ l, t2.idempotency_key ≠ key) (hk : hdr.idempotency_key = key) :
    (l ++ [hdr]).filter (fun t2 => t2.idempotency_key == key) = [hdr] := by
  rw [List.filter_append]
  have h1 : l.filter (fun t2 => t2.idempotency_key == key) = [] := by
    rw [List.filter_eq_nil_iff]
    intro t2 ht2
    simp [hl t2 ht2]
  rw [h1]
  simp [List.filter, hk]

-- ===========================================================================
-- Concrete seeded states for witnesses and counterexamples
-- ===========================================================================

/-- A seeded database: one active asset GOLD_COIN (id 1); treasury account
id 1, user_001's USER account id 2, revenue id 3, bonus pool id 4; cached
balances: treasury 10,000,000, user_001 500, bonus pool 1,000. -/
def seedDB : DB :=
  { asset_types := [⟨1, "GOLD_COIN", true⟩]
    accounts := [⟨1, "SYSTEM_TREASURY", none, true⟩, ⟨2, "USER", some "user_001", true⟩,
                 ⟨3, "SYSTEM_REVENUE", none, true⟩, ⟨4, "SYSTEM_BONUS", none, true⟩]
    transaction_types := [⟨1, "TOP_UP"⟩, ⟨2, "BONUS"⟩, ⟨3, "PURCHASE"⟩]
    transactions := []
    ledger_entries := []
    balance_cache := [⟨1, 1, 10000000, none⟩, ⟨2, 1, 500, none⟩, ⟨4, 1, 1000, none⟩]
    idempotency_log := []
    audit_log := []
    now := 1000
    nextId := 10 }

/-- The response the earlier movement under key "k9" committed. -/
def oldResp : Response := ⟨5, "user_001", "GOLD_COIN", 100, 600, none, none, 900⟩

/-- State `seedDB` after an earlier topUp under key "k9" whose idempotency record
has expired (`expires_at = now`, not in the future); the transaction header
with that key remains, as headers are immutable. -/
def stExpired : DB :=
  { seedDB with
    transactions := [⟨5, "k9", 1, 1, 100, "Top-up 100 GOLD_COIN", "completed", some 900⟩]
    idempotency_log := [⟨"k9", ⟨"user_001", "GOLD_COIN", 100⟩, oldResp, "completed", 1000⟩] }

/-- The database as the losing worker's transaction body sees it after a
concurrent winner committed key "k9": header present and the winner's
idempotency record still unexpired. -/
def stWinner : DB :=
  { seedDB with
    transactions := [⟨5, "k9", 1, 1, 100, "Top-up 100 GOLD_COIN", "completed", some 900⟩]
    idempotency_log := [⟨"k9", ⟨"user_001", "GOLD_COIN", 100⟩, oldResp, "completed", 87400⟩] }

/-- A minimal cache-consistent state: the treasury balance of 100 is backed
by one genesis ledger entry; every other `(account, asset)` pair has no cache
row and no entries. -/
def seedC4 : DB :=
  { seedDB with
    ledger_entries := [⟨5, 1, 1, .credit, 100, 100, "genesis funding"⟩]
    balance_cache := [⟨1, 1, 100, none⟩] }

/-- The committed result of `topUp seedDB user_001 GOLD_COIN 100 "k1"`. -/
def k1Result : DB × Response :=
  topUpCommit seedDB "user_001" "GOLD_COIN" 100 "k1" Metadata.empty
    ⟨1, "GOLD_COIN", true⟩ ⟨2, "USER", some "user_001", true⟩
    ⟨1, "SYSTEM_TREASURY", none, true⟩ ⟨1, "TOP_UP"⟩

-- ===========================================================================
-- Claim theorems
-- ===========================================================================

/-- C1.  For every movement committed by topUp, issueBonus, or purchase (any
committed run of the corresponding transaction body, from any state whose
persisted transaction ids respect the UUID freshness counter), exactly two
ledger entries reference the new transaction header: one debit and one
credit, both carrying the same strictly positive amount — the requested
amount — and the same asset type as the header. -/
theorem claim_C1 (k : OpKind) (st : DB) (userId assetCode : String) (amount : Int)
    (key : String) (md : Metadata) (st' : DB) (r : Response)
    (hWF : freshIds st)
    (h : (runExec k st userId assetCode amount key md).2 = .ok (st', r)) :
    ∃ hdr d cr, st'.transactions = st.transactions ++ [hdr] ∧
      st'.ledger_entries.filter (fun e => e.transaction_id == hdr.id) = [d, cr] ∧
      d.entry_type = .debit ∧ cr.entry_type = .credit ∧
      d.amount = amount ∧ cr.amount = amount ∧ 0 < amount ∧
      d.asset_type_id = hdr.asset_type_id ∧ cr.asset_type_id = hdr.asset_type_id := by
  obtain ⟨hAmtPos, hrtxn, hnow, hnext, holdH, holdI, hdr, d, cr, row, htx, hen, hid,
    hhid, hhkey, hham, hhst, hhcomp, hdtx, hctx, hdty, hcty, hdam, hcam, hdas, hcas,
    hrkey, hrst, hrexp, hrresp⟩ := exec_ok_shape k st userId assetCode amount key md st' r h
  refine ⟨hdr, d, cr, htx, ?_, hdty, hcty, hdam, hcam, hAmtPos, hdas, hcas⟩
  rw [hen, hhid]
  exact filter_new_entries st.ledger_entries d cr st.nextId hWF.1 hdtx hctx

/-- C1 witness: the concrete topUp of 100 GOLD_COIN from the seeded state. -/
theorem claim_C1_witness :
    freshIds seedDB ∧
    (∃ hdr d cr, k1Result.1.transactions = seedDB.transactions ++ [hdr] ∧
      k1Result.1.ledger_entries.filter (fun e => e.transaction_id == hdr.id) = [d, cr] ∧
      d.entry_type = .debit ∧ cr.entry_type = .credit ∧
      d.amount = 100 ∧ cr.amount = 100 ∧ (0 : Int) < 100 ∧
      d.asset_type_id = hdr.asset_type_id ∧ cr.asset_type_id = hdr.asset_type_id) :=
  ⟨by unfold freshIds; decide,
   claim_C1 .topUpOp seedDB "user_001" "GOLD_COIN" 100 "k1" Metadata.empty
     k1Result.1 k1Result.2 (by unfold freshIds; decide) (by rfl)⟩

/-- C3.  If any step of a movement fails, the whole database transaction is
rolled back: the resulting state is the pre-state, so no transaction header,
no ledger entries, no balance-cache update and no idempotency record
persist, and every balance is unchanged. -/
theorem claim_C3 (k : OpKind) (st : DB) (userId assetCode : String) (amount : Int)
    (key : String) (md : Metadata) (e : Err)
    (h : (execOutcome k st userId assetCode amount key md).2 = .error e) :
    (execOutcome k st userId assetCode amount key md).1 = st ∧
    (execOutcome k st userId assetCode amount key md).1.transactions = st.transactions ∧
    (execOutcome k st userId assetCode amount key md).1.ledger_entries = st.ledger_entries ∧
    (execOutcome k st userId assetCode amount key md).1.balance_cache = st.balance_cache ∧
    (execOutcome k st userId assetCode amount key md).1.idempotency_log = st.idempotency_log ∧
    ∀ a t, _getBalance (execOutcome k st userId assetCode amount key md).1 a t =
      _getBalance st a t := by
  unfold execOutcome at h ⊢
  cases hx : (runExec k st userId assetCode amount key md).2 with
  | ok p =>
    rw [hx] at h
    exact absurd h (by simp)
  | error e2 =>
    exact ⟨rfl, rfl, rfl, rfl, rfl, fun a t => rfl⟩

/-- C3 witness: the spec's scenario — `purchase(user_001, GOLD_COIN, 10000, "k3")`
fails with InsufficientFunds and leaves the seeded state untouched. -/
theorem claim_C3_witness :
    (execOutcome .purchaseOp seedDB "user_001" "GOLD_COIN" 10000 "k3" Metadata.empty).2 =
      .error (.insufficientBalance 500 10000) ∧
    (execOutcome .purchaseOp seedDB "user_001" "GOLD_COIN" 10000 "k3" Metadata.empty).1 =
      seedDB ∧
    ∀ a t, _getBalance
        (execOutcome .purchaseOp seedDB "user_001" "GOLD_COIN" 10000 "k3" Metadata.empty).1
        a t = _getBalance seedDB a t :=
  ⟨by rfl,
   (claim_C3 .purchaseOp seedDB "user_001" "GOLD_COIN" 10000 "k3" Metadata.empty
     (.insufficientBalance 500 10000) (by rfl)).1,
   (claim_C3 .purchaseOp seedDB "user_001" "GOLD_COIN" 10000 "k3" Metadata.empty
     (.insufficientBalance 500 10000) (by rfl)).2.2.2.2.2⟩

/-- C10.  Every transaction header the engine inserts is created directly
with status 'completed' and a non-null completed_at timestamp (stamped with
the clock); the engine never writes a header with status 'pending', 'failed'
or 'reversed'. -/
theorem claim_C10 (k : OpKind) (st : DB) (userId assetCode : String) (amount : Int)
    (key : String) (md : Metadata) (st' : DB) (r : Response)
    (h : (runExec k st userId assetCode amount key md).2 = .ok (st', r)) :
    ∃ hdr, st'.transactions = st.transactions ++ [hdr] ∧
      hdr.status = "completed" ∧ hdr.completed_at = some st.now ∧
      hdr.status ≠ "pending" ∧ hdr.status ≠ "failed" ∧ hdr.status ≠ "reversed" := by
  obtain ⟨hAmtPos, hrtxn, hnow, hnext, holdH, holdI, hdr, d, cr, row, htx, hen, hid,
    hhid, hhkey, hham, hhst, hhcomp, hdtx, hctx, hdty, hcty, hdam, hcam, hdas, hcas,
    hrkey, hrst, hrexp, hrresp⟩ := exec_ok_shape k st userId assetCode amount key md st' r h
  exact ⟨hdr, htx, hhst, hhcomp, by rw [hhst]; decide, by rw [hhst]; decide,
    by rw [hhst]; decide⟩

/-- C10 witness: the concrete issueBonus of 1000 GOLD_COIN from the seeded state. -/
theorem claim_C10_witness :
    ∃ hdr, (bonusCommit seedDB "user_001" "GOLD_COIN" 1000 "kb" Metadata.empty
        ⟨1, "GOLD_COIN", true⟩ ⟨2, "USER", some "user_001", true⟩
        ⟨4, "SYSTEM_BONUS", none, true⟩ ⟨2, "BONUS"⟩).1.transactions =
      seedDB.transactions ++ [hdr] ∧
      hdr.status = "completed" ∧ hdr.completed_at = some seedDB.now ∧
      hdr.status ≠ "pending" ∧ hdr.status ≠ "failed" ∧ hdr.status ≠ "reversed" :=
  claim_C10 .bonusOp seedDB "user_001" "GOLD_COIN" 1000 "kb" Metadata.empty
    (bonusCommit seedDB "user_001" "GOLD_COIN" 1000 "kb" Metadata.empty
      ⟨1, "GOLD_COIN", true⟩ ⟨2, "USER", some "user_001", true⟩
      ⟨4, "SYSTEM_BONUS", none, true⟩ ⟨2, "BONUS"⟩).1
    (bonusCommit seedDB "user_001" "GOLD_COIN" 1000 "kb" Metadata.empty
      ⟨1, "GOLD_COIN", true⟩ ⟨2, "USER", some "user_001", true⟩
      ⟨4, "SYSTEM_BONUS", none, true⟩ ⟨2, "BONUS"⟩).2
    (by rfl)

/-- C2.  Idempotence: when the first call with a fresh idempotency key
commits, then after any number of further calls with the identical
`(userId, assetCode, amount, idempotencyKey)` the database is unchanged,
exactly one transaction header with that key exists, exactly one
debit/credit pair of ledger entries was appended for it, and every further
call returns the very same response payload (state and response). -/
theorem claim_C2 (k : OpKind) (st : DB) (userId assetCode : String) (amount : Int)
    (key : String) (md : Metadata) (st1 : DB) (r : Response)
    (hWF : freshIds st)
    (hIdem : _checkIdempotency st key = none)
    (h : runOp k st userId assetCode amount key md = .ok (st1, r)) :
    runOp k st1 userId assetCode amount key md = .ok (st1, r) ∧
    ∀ n, callsAfter k userId assetCode amount key md n st1 = st1 ∧
      ((callsAfter k userId assetCode amount key md n st1).transactions.filter
        (fun t2 => t2.idempotency_key == key)).length = 1 ∧
      ∃ d cr, (callsAfter k userId assetCode amount key md n st1).ledger_entries.filter
          (fun e => e.transaction_id == r.transactionId) = [d, cr] ∧
        d.entry_type = .debit ∧ cr.entry_type = .credit := by
  obtain ⟨hu, ha, hk, hAmt⟩ := runOp_ok_inputs k st userId assetCode amount key md _ h
  rw [runOp_eq_exec k st userId assetCode amount key md hu ha hk hAmt hIdem] at h
  obtain ⟨hAmtPos, hrtxn, hnow, hnext, holdH, holdI, hdr, d, cr, row, htx, hen, hid,
    hhid, hhkey, hham, hhst, hhcomp, hdtx, hctx, hdty, hcty, hdam, hcam, hdas, hcas,
    hrkey, hrst, hrexp, hrresp⟩ := exec_ok_shape k st userId assetCode amount key md st1 r h
  have hci : _checkIdempotency st1 key = some r := by
    have hx := checkIdem_after st st1 key row hid hnow holdI hrkey hrst hrexp
    rwa [hrresp] at hx
  have hsingle : runOp k st1 userId assetCode amount key md = .ok (st1, r) :=
    runOp_cached k st1 userId assetCode amount key md r hu ha hk hAmt hci
  have hstate : ∀ n, callsAfter k userId assetCode amount key md n st1 = st1 := by
    intro n
    induction n with
    | zero => rfl
    | succ n ih =>
      show (match runOp k st1 userId assetCode amount key md with
        | .ok (st', _) => callsAfter k userId assetCode amount key md n st'
        | .error _ => callsAfter k userId assetCode amount key md n st1) = st1
      rw [hsingle]
      exact ih
  have hcount : (st1.transactions.filter (fun t2 => t2.idempotency_key == key)).length = 1 := by
    rw [htx, filter_new_header st.transactions hdr key holdH hhkey]
    rfl
  have hpair : st1.ledger_entries.filter (fun e => e.transaction_id == r.transactionId) =
      [d, cr] := by
    rw [hen, hrtxn]
    exact filter_new_entries st.ledger_entries d cr st.nextId hWF.1 hdtx hctx
  refine ⟨hsingle, fun n => ?_⟩
  rw [hstate n]
  exact ⟨rfl, hcount, d, cr, hpair, hdty, hcty⟩

/-- Cache and ledger agreement at the two touched pairs, for the committed
state of any movement: the source row reads its debit entry's running
balance, the destination row its credit entry's, and both equal the ledger
sums, provided the pre-state cache agreed with the pre-state ledger. -/
theorem commit_cache_props (st : DB) (hdr : TransactionHeader) (d cr : LedgerEntry)
    (srcId dstId assetId : Nat) (sb db amount : Int) (row : IdempotencyRow)
    (aAcct : Nat) (act : String)
    (hne : srcId ≠ dstId)
    (hCC : cacheConsistent st)
    (hsb : sb = _getBalance st srcId assetId) (hdb : db = _getBalance st dstId assetId)
    (hdacc : d.account_id = srcId) (hdast : d.asset_type_id = assetId)
    (hdty : d.entry_type = .debit) (hdam : d.amount = amount)
    (hdrb : d.running_balance = sb - amount)
    (hcacc : cr.account_id = dstId) (hcast : cr.asset_type_id = assetId)
    (hcty : cr.entry_type = .credit) (hcam : cr.amount = amount)
    (hcrb : cr.running_balance = db + amount) :
    _getBalance (commitState st hdr d cr srcId dstId assetId (sb - amount) (db + amount)
        row aAcct act) srcId assetId = d.running_balance ∧
    d.running_balance = entrySum (commitState st hdr d cr srcId dstId assetId (sb - amount)
        (db + amount) row aAcct act) srcId assetId ∧
    _getBalance (commitState st hdr d cr srcId dstId assetId (sb - amount) (db + amount)
        row aAcct act) dstId assetId = cr.running_balance ∧
    cr.running_balance = entrySum (commitState st hdr d cr srcId dstId assetId (sb - amount)
        (db + amount) row aAcct act) dstId assetId := by
  have hsum_src : entrySum st srcId assetId = sb := by
    rw [hsb]
    exact (hCC srcId assetId).symm
  have hsum_dst : entrySum st dstId assetId = db := by
    rw [hdb]
    exact (hCC dstId assetId).symm
  have hcache : (commitState st hdr d cr srcId dstId assetId (sb - amount) (db + amount)
      row aAcct act).balance_cache =
      upsertCache (upsertCache st.balance_cache srcId assetId (sb - amount) hdr.id)
        dstId assetId (db + amount) hdr.id := rfl
  have hentries : (commitState st hdr d cr srcId dstId assetId (sb - amount) (db + amount)
      row aAcct act).ledger_entries = st.ledger_entries ++ [d, cr] := rfl
  have hg_src : _getBalance (commitState st hdr d cr srcId dstId assetId (sb - amount)
      (db + amount) row aAcct act) srcId assetId = sb - amount := by
    rw [getBalance_eq_cacheVal, hcache]
    rw [cacheVal_upsert_other
      (upsertCache st.balance_cache srcId assetId (sb - amount) hdr.id)
      dstId assetId srcId assetId (db + amount) hdr.id (fun hp => hne hp.1)]
    exact cacheVal_upsert_self _ _ _ _ _
  have hg_dst : _getBalance (commitState st hdr d cr srcId dstId assetId (sb - amount)
      (db + amount) row aAcct act) dstId assetId = db + amount := by
    rw [getBalance_eq_cacheVal, hcache]
    exact cacheVal_upsert_self _ _ _ _ _
  have hs_src : entrySum (commitState st hdr d cr srcId dstId assetId (sb - amount)
      (db + amount) row aAcct act) srcId assetId = sb - amount := by
    unfold entrySum
    rw [hentries, entrySumL_append_pair]
    rw [entrySumL_single_match d srcId assetId hdacc hdast]
    rw [entrySumL_single_nomatch cr srcId assetId (fun hp => hne (hcacc ▸ hp.1).symm)]
    have hdelta : entryDelta d = -amount := by
      unfold entryDelta
      rw [hdty, hdam]
    rw [hdelta]
    have : entrySumL st.ledger_entries srcId assetId = sb := hsum_src
    rw [this]
    ring
  have hs_dst : entrySum (commitState st hdr d cr srcId dstId assetId (sb - amount)
      (db + amount) row aAcct act) dstId assetId = db + amount := by
    unfold entrySum
    rw [hentries, entrySumL_append_pair]
    rw [entrySumL_single_match cr dstId assetId hcacc hcast]
    rw [entrySumL_single_nomatch d dstId assetId (fun hp => hne (hdacc ▸ hp.1))]
    have hdelta : entryDelta cr = amount := by
      unfold entryDelta
      rw [hcty, hcam]
    rw [hdelta]
    have : entrySumL st.ledger_entries dstId assetId = db := hsum_dst
    rw [this]
    ring
  exact ⟨by rw [hg_src, hdrb], by rw [hs_src, hdrb], by rw [hg_dst, hcrb],
    by rw [hs_dst, hcrb]⟩

/-- C4.  After every committed movement, for each of the two touched
`(account, asset)` pairs, the balance-cache row equals the `running_balance`
written on that account's new ledger entry, which in turn equals the sum of
credits minus debits over all committed ledger entries for that pair
(assuming the pre-state cache agreed with the pre-state ledger, which this
very statement propagates). -/
theorem claim_C4 (k : OpKind) (st : DB) (userId assetCode : String) (amount : Int)
    (key : String) (md : Metadata) (asset : AssetType) (u c : Account) (tt : TransactionType)
    (hA : findAsset st assetCode = some asset)
    (hU : findUserAccount st userId = some u)
    (hC : findSystemAccount st (counterpartyCode k) = some c)
    (hT : findTxnType st (txnTypeCode k) = some tt)
    (hne : u.id ≠ c.id)
    (hCC : cacheConsistent st)
    (hNN : cacheNonneg st)
    (hAmt : 0 < amount)
    (hKeyH : ∀ t2 ∈ st.transactions, t2.idempotency_key ≠ key)
    (hKeyI : ∀ r2 ∈ st.idempotency_log, r2.idempotency_key ≠ key)
    (hBal : amount ≤ _getBalance st (sourceOf k u c).id asset.id) :
    ∃ st' r d cr,
      (runExec k st userId assetCode amount key md).2 = .ok (st', r) ∧
      st'.ledger_entries = st.ledger_entries ++ [d, cr] ∧
      d.account_id = (sourceOf k u c).id ∧ cr.account_id = (destOf k u c).id ∧
      _getBalance st' d.account_id asset.id = d.running_balance ∧
      d.running_balance = entrySum st' d.account_id asset.id ∧
      _getBalance st' cr.account_id asset.id = cr.running_balance ∧
      cr.running_balance = entrySum st' cr.account_id asset.id := by
  cases k with
  | topUpOp =>
    have hUB := getBalance_nonneg st hNN u.id asset.id
    have heq := executeTopUp_success st userId assetCode amount key md asset u c tt
      hA hU hC hT hAmt hKeyH hKeyI hBal hUB
    have hprops := commit_cache_props st
      ⟨st.nextId, key, tt.id, asset.id, amount,
        md.description.getD ("Top-up " ++ toString amount ++ " " ++ assetCode),
        "completed", some st.now⟩
      ⟨st.nextId, c.id, asset.id, .debit, amount, _getBalance st c.id asset.id - amount,
        "Debit from treasury for user top-up"⟩
      ⟨st.nextId, u.id, asset.id, .credit, amount, _getBalance st u.id asset.id + amount,
        "Credit to user wallet"⟩
      c.id u.id asset.id (_getBalance st c.id asset.id) (_getBalance st u.id asset.id) amount
      ⟨key, _hashRequest userId assetCode amount,
        ⟨st.nextId, userId, assetCode, amount, _getBalance st u.id asset.id + amount,
          none, none, st.now⟩, "completed", st.now + 86400⟩
      u.id "TOP_UP" (fun hp => hne hp.symm) hCC rfl rfl rfl rfl rfl rfl rfl rfl rfl rfl rfl rfl
    refine ⟨(topUpCommit st userId assetCode amount key md asset u c tt).1,
      (topUpCommit st userId assetCode amount key md asset u c tt).2,
      ⟨st.nextId, c.id, asset.id, .debit, amount, _getBalance st c.id asset.id - amount,
        "Debit from treasury for user top-up"⟩,
      ⟨st.nextId, u.id, asset.id, .credit, amount, _getBalance st u.id asset.id + amount,
        "Credit to user wallet"⟩,
      ?_, ?_, rfl, rfl, hprops.1, hprops.2.1, hprops.2.2.1, hprops.2.2.2⟩
    · show (_executeTopUpTransaction st userId assetCode amount key md).2 = _
      rw [heq]
    · rfl
  | bonusOp =>
    have hUB := getBalance_nonneg st hNN u.id asset.id
    have heq := executeBonus_success st userId assetCode amount key md asset u c tt
      hA hU hC hT hAmt hKeyH hKeyI hBal hUB
    have hprops := commit_cache_props st
      ⟨st.nextId, key, tt.id, asset.id, amount,
        md.reason.getD ("Bonus " ++ toString amount ++ " " ++ assetCode),
        "completed", some st.now⟩
      ⟨st.nextId, c.id, asset.id, .debit, amount, _getBalance st c.id asset.id - amount,
        "Debit from bonus pool"⟩
      ⟨st.nextId, u.id, asset.id, .credit, amount, _getBalance st u.id asset.id + amount,
        "Bonus credit to user"⟩
      c.id u.id asset.id (_getBalance st c.id asset.id) (_getBalance st u.id asset.id) amount
      ⟨key, _hashRequest userId assetCode amount,
        ⟨st.nextId, userId, assetCode, amount, _getBalance st u.id asset.id + amount,
          md.reason, none, st.now⟩, "completed", st.now + 86400⟩
      u.id "BONUS" (fun hp => hne hp.symm) hCC rfl rfl rfl rfl rfl rfl rfl rfl rfl rfl rfl rfl
    refine ⟨(bonusCommit st userId assetCode amount key md asset u c tt).1,
      (bonusCommit st userId assetCode amount key md asset u c tt).2,
      ⟨st.nextId, c.id, asset.id, .debit, amount, _getBalance st c.id asset.id - amount,
        "Debit from bonus pool"⟩,
      ⟨st.nextId, u.id, asset.id, .credit, amount, _getBalance st u.id asset.id + amount,
        "Bonus credit to user"⟩,
      ?_, ?_, rfl, rfl, hprops.1, hprops.2.1, hprops.2.2.1, hprops.2.2.2⟩
    · show (_executeIssueBonusTransaction st userId assetCode amount key md).2 = _
      rw [heq]
    · rfl
  | purchaseOp =>
    have hRB := getBalance_nonneg st hNN c.id asset.id
    have heq := executePurchase_success st userId assetCode amount key md asset u c tt
      hA hU hC hT hAmt hKeyH hKeyI hBal hRB
    have hprops := commit_cache_props st
      ⟨st.nextId, key, tt.id, asset.id, amount,
        match md.itemName with
        | some itemName => "Purchase " ++ itemName ++ " for " ++ toString amount ++ " " ++ assetCode
        | none => "Purchase for " ++ toString amount ++ " " ++ assetCode,
        "completed", some st.now⟩
      ⟨st.nextId, u.id, asset.id, .debit, amount, _getBalance st u.id asset.id - amount,
        "Debit from user for purchase"⟩
      ⟨st.nextId, c.id, asset.id, .credit, amount, _getBalance st c.id asset.id + amount,
        "Revenue from user purchase"⟩
      u.id c.id asset.id (_getBalance st u.id asset.id) (_getBalance st c.id asset.id) amount
      ⟨key, _hashRequest userId assetCode amount,
        ⟨st.nextId, userId, assetCode, amount, _getBalance st u.id asset.id - amount,
          none, md.itemName.or md.itemId, st.now⟩, "completed", st.now + 86400⟩
      u.id "PURCHASE" hne hCC rfl rfl rfl rfl rfl rfl rfl rfl rfl rfl rfl rfl
    refine ⟨(purchaseCommit st userId assetCode amount key md asset u c tt).1,
      (purchaseCommit st userId assetCode amount key md asset u c tt).2,
      ⟨st.nextId, u.id, asset.id, .debit, amount, _getBalance st u.id asset.id - amount,
        "Debit from user for purchase"⟩,
      ⟨st.nextId, c.id, asset.id, .credit, amount, _getBalance st c.id asset.id + amount,
        "Revenue from user purchase"⟩,
      ?_, ?_, rfl, rfl, hprops.1, hprops.2.1, hprops.2.2.1, hprops.2.2.2⟩
    · show (_executePurchaseTransaction st userId assetCode amount key md).2 = _
      rw [heq]
    · rfl

/-- C4 witness: the concrete topUp of 100 from the genesis-consistent state. -/
theorem claim_C4_witness :
    cacheConsistent seedC4 ∧
    (∃ st' r d cr,
      (runExec .topUpOp seedC4 "user_001" "GOLD_COIN" 100 "kc" Metadata.empty).2 =
        .ok (st', r) ∧
      st'.ledger_entries = seedC4.ledger_entries ++ [d, cr] ∧
      d.account_id = (sourceOf .topUpOp ⟨2, "USER", some "user_001", true⟩
        ⟨1, "SYSTEM_TREASURY", none, true⟩).id ∧
      cr.account_id = (destOf .topUpOp ⟨2, "USER", some "user_001", true⟩
        ⟨1, "SYSTEM_TREASURY", none, true⟩).id ∧
      _getBalance st' d.account_id 1 = d.running_balance ∧
      d.running_balance = entrySum st' d.account_id 1 ∧
      _getBalance st' cr.account_id 1 = cr.running_balance ∧
      cr.running_balance = entrySum st' cr.account_id 1) := by
  have hCC : cacheConsistent seedC4 := by
    intro a t
    rw [getBalance_eq_cacheVal]
    by_cases ha : a = 1
    · subst ha
      by_cases ht : t = 1
      · subst ht
        decide
      · have h3 : ((1 : Nat) == t) = false := by
          rw [beq_eq_false_iff_ne]
          exact fun hc => ht hc.symm
        simp [seedC4, seedDB, cacheVal, entrySum, entrySumL, List.find?, List.filter, h3]
    · have h2 : ((1 : Nat) == a) = false := by
        rw [beq_eq_false_iff_ne]
        exact fun hc => ha hc.symm
      simp [seedC4, seedDB, cacheVal, entrySum, entrySumL, List.find?, List.filter, h2]
  refine ⟨hCC, ?_⟩
  exact claim_C4 .topUpOp seedC4 "user_001" "GOLD_COIN" 100 "kc" Metadata.empty
    ⟨1, "GOLD_COIN", true⟩ ⟨2, "USER", some "user_001", true⟩
    ⟨1, "SYSTEM_TREASURY", none, true⟩ ⟨1, "TOP_UP"⟩
    (by decide) (by decide) (by decide) (by decide) (by decide) hCC
    (by unfold cacheNonneg; decide) (by decide) (by unfold seedC4 seedDB; decide)
    (by unfold seedC4 seedDB; decide) (by decide)

/-- C5.  With valid inputs, a fresh idempotency key, and resolvable
accounts, each movement raises its InsufficientFunds error exactly when the
source account's cached balance is strictly below the requested amount
(purchase checks the user balance, topUp the treasury, issueBonus the bonus
pool), and a request whose amount equals the available balance exactly
succeeds. -/
theorem claim_C5 (k : OpKind) (st : DB) (userId assetCode : String) (amount : Int)
    (key : String) (md : Metadata) (asset : AssetType) (u c : Account) (tt : TransactionType)
    (hu : userId ≠ "") (ha : assetCode ≠ "") (hk : key ≠ "") (hAmt : 0 < amount)
    (hA : findAsset st assetCode = some asset)
    (hU : findUserAccount st userId = some u)
    (hC : findSystemAccount st (counterpartyCode k) = some c)
    (hT : findTxnType st (txnTypeCode k) = some tt)
    (hKeyH : ∀ t2 ∈ st.transactions, t2.idempotency_key ≠ key)
    (hKeyI : ∀ r2 ∈ st.idempotency_log, r2.idempotency_key ≠ key)
    (hNN : cacheNonneg st) :
    (runOp k st userId assetCode amount key md =
        .error (insufficientErr k (_getBalance st (sourceOf k u c).id asset.id) amount) ↔
      _getBalance st (sourceOf k u c).id asset.id < amount) ∧
    (amount ≤ _getBalance st (sourceOf k u c).id asset.id →
      ∃ st' r, runOp k st userId assetCode amount key md = .ok (st', r)) := by
  have hIdem : _checkIdempotency st key = none := checkIdem_none_of_unused st key hKeyI
  rw [runOp_eq_exec k st userId assetCode amount key md hu ha hk hAmt hIdem]
  cases k with
  | topUpOp =>
    simp only [sourceOf, insufficientErr, runExec]
    have hUB := getBalance_nonneg st hNN u.id asset.id
    constructor
    · constructor
      · intro he
        by_contra hnlt
        push_neg at hnlt
        rw [executeTopUp_success st userId assetCode amount key md asset u c tt
          hA hU hC hT hAmt hKeyH hKeyI hnlt hUB] at he
        exact absurd he (by simp)
      · intro hlt2
        rw [executeTopUp_insufficient st userId assetCode amount key md asset u c tt
          hA hU hC hT hAmt hKeyH hlt2]
    · intro hge
      refine ⟨(topUpCommit st userId assetCode amount key md asset u c tt).1,
        (topUpCommit st userId assetCode amount key md asset u c tt).2, ?_⟩
      rw [executeTopUp_success st userId assetCode amount key md asset u c tt
        hA hU hC hT hAmt hKeyH hKeyI hge hUB]
  | bonusOp =>
    simp only [sourceOf, insufficientErr, runExec]
    have hUB := getBalance_nonneg st hNN u.id asset.id
    constructor
    · constructor
      · intro he
        by_contra hnlt
        push_neg at hnlt
        rw [executeBonus_success st userId assetCode amount key md asset u c tt
          hA hU hC hT hAmt hKeyH hKeyI hnlt hUB] at he
        exact absurd he (by simp)
      · intro hlt2
        rw [executeBonus_insufficient st userId assetCode amount key md asset u c tt
          hA hU hC hT hAmt hKeyH hlt2]
    · intro hge
      refine ⟨(bonusCommit st userId assetCode amount key md asset u c tt).1,
        (bonusCommit st userId assetCode amount key md asset u c tt).2, ?_⟩
      rw [executeBonus_success st userId assetCode amount key md asset u c tt
        hA hU hC hT hAmt hKeyH hKeyI hge hUB]
  | purchaseOp =>
    simp only [sourceOf, insufficientErr, runExec]
    have hRB := getBalance_nonneg st hNN c.id asset.id
    constructor
    · constructor
      · intro he
        by_contra hnlt
        push_neg at hnlt
        rw [executePurchase_success st userId assetCode amount key md asset u c tt
          hA hU hC hT hAmt hKeyH hKeyI hnlt hRB] at he
        exact absurd he (by simp)
      · intro hlt2
        rw [executePurchase_insufficient st userId assetCode amount key md asset u c tt
          hA hU hC hT hlt2]
    · intro hge
      refine ⟨(purchaseCommit st userId assetCode amount key md asset u c tt).1,
        (purchaseCommit st userId assetCode amount key md asset u c tt).2, ?_⟩
      rw [executePurchase_success st userId assetCode amount key md asset u c tt
        hA hU hC hT hAmt hKeyH hKeyI hge hRB]

/-- C5 witness: the boundary case — a purchase of exactly the full cached
balance of 500 from the seeded state succeeds, and the InsufficientFunds
error occurs iff the balance is below the amount (here it is not). -/
theorem claim_C5_witness :
    (runOp .purchaseOp seedDB "user_001" "GOLD_COIN" 500 "k2" Metadata.empty =
        .error (insufficientErr .purchaseOp
          (_getBalance seedDB (sourceOf .purchaseOp ⟨2, "USER", some "user_001", true⟩
            ⟨3, "SYSTEM_REVENUE", none, true⟩).id 1) 500) ↔
      _getBalance seedDB (sourceOf .purchaseOp ⟨2, "USER", some "user_001", true⟩
        ⟨3, "SYSTEM_REVENUE", none, true⟩).id 1 < 500) ∧
    (500 ≤ _getBalance seedDB (sourceOf .purchaseOp ⟨2, "USER", some "user_001", true⟩
        ⟨3, "SYSTEM_REVENUE", none, true⟩).id 1 →
      ∃ st' r, runOp .purchaseOp seedDB "user_001" "GOLD_COIN" 500 "k2" Metadata.empty =
        .ok (st', r)) :=
  claim_C5 .purchaseOp seedDB "user_001" "GOLD_COIN" 500 "k2" Metadata.empty
    ⟨1, "GOLD_COIN", true⟩ ⟨2, "USER", some "user_001", true⟩
    ⟨3, "SYSTEM_REVENUE", none, true⟩ ⟨3, "PURCHASE"⟩
    (by decide) (by decide) (by decide) (by decide) (by decide) (by decide)
    (by decide) (by decide) (by decide) (by decide) (by unfold cacheNonneg; decide)

/-- C2 witness: two further calls of the concrete topUp of 100 under "k1"
leave the seeded post-state unchanged and return the same payload. -/
theorem claim_C2_witness :
    (runOp .topUpOp k1Result.1 "user_001" "GOLD_COIN" 100 "k1" Metadata.empty =
      .ok (k1Result.1, k1Result.2)) ∧
    callsAfter .topUpOp "user_001" "GOLD_COIN" 100 "k1" Metadata.empty 2 k1Result.1 =
      k1Result.1 ∧
    ((callsAfter .topUpOp "user_001" "GOLD_COIN" 100 "k1" Metadata.empty 2
        k1Result.1).transactions.filter
      (fun t2 => t2.idempotency_key == "k1")).length = 1 :=
  have hmain := claim_C2 .topUpOp seedDB "user_001" "GOLD_COIN" 100 "k1" Metadata.empty
    k1Result.1 k1Result.2 (by unfold freshIds; decide) (by rfl) (by rfl)
  ⟨hmain.1, (hmain.2 2).1, (hmain.2 2).2.1⟩

/-- C6 counterexample.  The claimed behavior — on a UniqueViolation the
orchestrator re-runs its fast-path lookup and returns the winning worker's
cached response — is false: in the race where the fast-path lookup ran
against `seedDB` (key absent) and the winner then committed key "k9"
(`stWinner` holds its header and unexpired cached response `oldResp`), the
losing topUp returns the UniqueViolation error, not the cached response. -/
theorem claim_C6_counterexample :
    topUpFromStates seedDB stWinner "user_001" "GOLD_COIN" 100 "k9" Metadata.empty =
      .error .uniqueViolation ∧
    _checkIdempotency stWinner "k9" = some oldResp ∧
    topUpFromStates seedDB stWinner "user_001" "GOLD_COIN" 100 "k9" Metadata.empty ≠
      .ok (stWinner, oldResp) := by
  refine ⟨by rfl, by rfl, ?_⟩
  intro hc
  rw [show topUpFromStates seedDB stWinner "user_001" "GOLD_COIN" 100 "k9" Metadata.empty =
    .error .uniqueViolation from rfl] at hc
  exact absurd hc (by simp)

/-- C6 (amended).  A UniqueViolation on the idempotency key (PostgreSQL
code 23505) is not retriable, so the retry driver surfaces it after the
first attempt without retrying; but the orchestrator performs no renewed
fast-path lookup — the UniqueViolation error simply propagates to the
caller. -/
theorem claim_C6 :
    isRetriable .uniqueViolation = false ∧
    (∀ (f : Nat → Except Err (DB × Response)),
      f 1 = .error .uniqueViolation → executeWithRetry f 3 = .error .uniqueViolation) ∧
    (∀ (stL stE : DB) (userId assetCode : String) (amount : Int) (key : String) (md : Metadata),
      userId ≠ "" → assetCode ≠ "" → key ≠ "" → 0 < amount →
      _checkIdempotency stL key = none →
      (_executeTopUpTransaction stE userId assetCode amount key md).2 =
        .error .uniqueViolation →
      topUpFromStates stL stE userId assetCode amount key md = .error .uniqueViolation) := by
  refine ⟨rfl, ?_, ?_⟩
  · intro f hf
    exact executeWithRetry_first_error f _ hf rfl 3
  · intro stL stE userId assetCode amount key md hu ha hk hAmt hIdem hexec
    rw [topUpFromStates_exec stL stE userId assetCode amount key md hu ha hk hAmt hIdem]
    exact hexec

/-- C6 witness: the retry driver surfaces a first-attempt UniqueViolation
unchanged even when a second attempt would have succeeded, and the concrete
raced topUp under "k9" surfaces it to the caller. -/
theorem claim_C6_witness :
    executeWithRetry
      (fun n => if n = 1 then (.error .uniqueViolation : Except Err (DB × Response))
        else .ok (seedDB, oldResp)) 3 = .error .uniqueViolation ∧
    topUpFromStates seedDB stWinner "user_001" "GOLD_COIN" 100 "k9" Metadata.empty =
      .error .uniqueViolation :=
  ⟨claim_C6.2.1 (fun n => if n = 1 then .error .uniqueViolation else .ok (seedDB, oldResp))
    (by rfl),
   claim_C6.2.2 seedDB stWinner "user_001" "GOLD_COIN" 100 "k9" Metadata.empty
    (by decide) (by decide) (by decide) (by decide) (by rfl) (by rfl)⟩

/-- C7 counterexample.  Locks are not always acquired in ascending
account-id order: in the seeded state the treasury row has id 1 and the
user row id 2, yet topUp locks the user row first — the lock trace is
[2, 1], which is not ascending. -/
theorem claim_C7_counterexample :
    (findSystemAccount seedDB "SYSTEM_TREASURY").map Account.id = some 1 ∧
    (findUserAccount seedDB "user_001").map Account.id = some 2 ∧
    locksOf (_executeTopUpTransaction seedDB "user_001" "GOLD_COIN" 100 "k1"
      Metadata.empty).1 = [2, 1] ∧
    ¬ List.Pairwise (· < ·) (locksOf (_executeTopUpTransaction seedDB "user_001" "GOLD_COIN"
      100 "k1" Metadata.empty).1) := by
  refine ⟨rfl, rfl, rfl, ?_⟩
  decide

/-- C7 (amended).  issueBonus and purchase lock the two account rows in one
`ORDER BY id FOR UPDATE NOWAIT` statement, hence in ascending id order; but
topUp first locks the user row (its account lookup carries FOR UPDATE
NOWAIT) and only then the remaining row of the sorted pair, so its lock
order is ascending exactly when the user's account id is below the
treasury's. -/
theorem claim_C7 :
    (∀ (st : DB) (userId assetCode : String) (amount : Int) (key : String) (md : Metadata)
      (asset : AssetType) (u c : Account),
      findAsset st assetCode = some asset → findUserAccount st userId = some u →
      findSystemAccount st "SYSTEM_BONUS" = some c →
      locksOf (_executeIssueBonusTransaction st userId assetCode amount key md).1 =
        orderedLockSeq u.id c.id) ∧
    (∀ (st : DB) (userId assetCode : String) (amount : Int) (key : String) (md : Metadata)
      (asset : AssetType) (u c : Account),
      findAsset st assetCode = some asset → findUserAccount st userId = some u →
      findSystemAccount st "SYSTEM_REVENUE" = some c →
      locksOf (_executePurchaseTransaction st userId assetCode amount key md).1 =
        orderedLockSeq u.id c.id) ∧
    (∀ a b : Nat, List.Pairwise (· < ·) (orderedLockSeq a b)) ∧
    (∀ (st : DB) (userId assetCode : String) (amount : Int) (key : String) (md : Metadata)
      (asset : AssetType) (u c : Account),
      findAsset st assetCode = some asset → findUserAccount st userId = some u →
      findSystemAccount st "SYSTEM_TREASURY" = some c →
      locksOf (_executeTopUpTransaction st userId assetCode amount key md).1 =
        topUpLockSeq u.id c.id) ∧
    (∀ a b : Nat, a ≠ b → (List.Pairwise (· < ·) (topUpLockSeq a b) ↔ a < b)) := by
  refine ⟨?_, ?_, ?_, ?_, ?_⟩
  · intro st userId assetCode amount key md asset u c hA hU hC
    unfold _executeIssueBonusTransaction
    simp only [hA, hU, hC]
    repeat' split
    all_goals simp [locksOf_append, locksOf_map_lockAcquired, locksOf, filterMap_lock_comp]
  · intro st userId assetCode amount key md asset u c hA hU hC
    unfold _executePurchaseTransaction
    simp only [hA, hU, hC]
    repeat' split
    all_goals simp [locksOf_append, locksOf_map_lockAcquired, locksOf, filterMap_lock_comp]
  · intro a b
    unfold orderedLockSeq sortPair
    by_cases hab : a ≤ b
    · rw [if_pos hab]
      by_cases heq : a = b
      · subst heq
        simp
      · rw [List.dedup_cons_of_not_mem (by simp [heq])]
        simp [List.Pairwise]
        omega
    · rw [if_neg hab]
      rw [List.dedup_cons_of_not_mem (by simp; omega)]
      simp [List.Pairwise]
      omega
  · intro st userId assetCode amount key md asset u c hA hU hC
    unfold _executeTopUpTransaction
    simp only [hA, hU, hC]
    repeat' split
    all_goals simp [locksOf_append, locksOf_map_lockAcquired, locksOf, filterMap_lock_comp]
  · intro a b hab
    unfold topUpLockSeq sortPair
    by_cases hle : a ≤ b
    · rw [if_pos hle]
      have h1 : ([a, b] : List Nat).head! = a := rfl
      have h2 : ([a, b] : List Nat).getLast! = b := rfl
      have hba : b ≠ a := fun hc => hab hc.symm
      simp [h1, h2, hba, List.Pairwise]
    · rw [if_neg hle]
      have h1 : ([b, a] : List Nat).head! = b := rfl
      have h2 : ([b, a] : List Nat).getLast! = a := rfl
      have hba : b ≠ a := fun hc => hab hc.symm
      simp [h1, h2, hba, List.Pairwise]

/-- C7 witness: in the seeded state a purchase locks [2, 3] — ascending —
and the topUp lock order [2, 1] is ascending iff 2 < 1, i.e. never. -/
theorem claim_C7_witness :
    locksOf (_executePurchaseTransaction seedDB "user_001" "GOLD_COIN" 100 "k2"
      Metadata.empty).1 = orderedLockSeq 2 3 ∧
    List.Pairwise (· < ·) (orderedLockSeq 2 3) ∧
    locksOf (_executeTopUpTransaction seedDB "user_001" "GOLD_COIN" 100 "k1"
      Metadata.empty).1 = topUpLockSeq 2 1 ∧
    (List.Pairwise (· < ·) (topUpLockSeq 2 1) ↔ 2 < 1) :=
  ⟨claim_C7.2.1 seedDB "user_001" "GOLD_COIN" 100 "k2" Metadata.empty
      ⟨1, "GOLD_COIN", true⟩ ⟨2, "USER", some "user_001", true⟩
      ⟨3, "SYSTEM_REVENUE", none, true⟩ (by decide) (by decide) (by decide),
   claim_C7.2.2.1 2 3,
   claim_C7.2.2.2.1 seedDB "user_001" "GOLD_COIN" 100 "k1" Metadata.empty
      ⟨1, "GOLD_COIN", true⟩ ⟨2, "USER", some "user_001", true⟩
      ⟨1, "SYSTEM_TREASURY", none, true⟩ (by decide) (by decide) (by decide),
   claim_C7.2.2.2.2 2 1 (by decide)⟩

/-- C8 counterexample.  The claimed step order — balance precondition
(step 3) enforced before the header insert (step 4) for all three
operations — is false for topUp: in the seeded run its trace records
headerInserted strictly before balanceChecked. -/
theorem claim_C8_counterexample :
    ¬ (eventIdx (_executeTopUpTransaction seedDB "user_001" "GOLD_COIN" 100 "k1"
        Metadata.empty).1 .balanceChecked <
      eventIdx (_executeTopUpTransaction seedDB "user_001" "GOLD_COIN" 100 "k1"
        Metadata.empty).1 .headerInserted) ∧
    eventIdx (_executeTopUpTransaction seedDB "user_001" "GOLD_COIN" 100 "k1"
        Metadata.empty).1 .headerInserted <
      eventIdx (_executeTopUpTransaction seedDB "user_001" "GOLD_COIN" 100 "k1"
        Metadata.empty).1 .balanceChecked := by
  decide

/-- C8 (amended).  On every committed movement, purchase enforces the
balance precondition strictly before inserting the transaction header,
while topUp and issueBonus insert the header first and only then check the
source balance (the inversion is unobservable after commit, since the whole
body is atomic). -/
theorem claim_C8 :
    (∀ (st : DB) (userId assetCode : String) (amount : Int) (key : String) (md : Metadata)
      (asset : AssetType) (u c : Account) (tt : TransactionType),
      findAsset st assetCode = some asset → findUserAccount st userId = some u →
      findSystemAccount st "SYSTEM_REVENUE" = some c → findTxnType st "PURCHASE" = some tt →
      0 < amount → (∀ t2 ∈ st.transactions, t2.idempotency_key ≠ key) →
      (∀ r2 ∈ st.idempotency_log, r2.idempotency_key ≠ key) →
      amount ≤ _getBalance st u.id asset.id → 0 ≤ _getBalance st c.id asset.id →
      eventIdx (_executePurchaseTransaction st userId assetCode amount key md).1
          .balanceChecked <
        eventIdx (_executePurchaseTransaction st userId assetCode amount key md).1
          .headerInserted) ∧
    (∀ (st : DB) (userId assetCode : String) (amount : Int) (key : String) (md : Metadata)
      (asset : AssetType) (u c : Account) (tt : TransactionType),
      findAsset st assetCode = some asset → findUserAccount st userId = some u →
      findSystemAccount st "SYSTEM_TREASURY" = some c → findTxnType st "TOP_UP" = some tt →
      0 < amount → (∀ t2 ∈ st.transactions, t2.idempotency_key ≠ key) →
      (∀ r2 ∈ st.idempotency_log, r2.idempotency_key ≠ key) →
      amount ≤ _getBalance st c.id asset.id → 0 ≤ _getBalance st u.id asset.id →
      eventIdx (_executeTopUpTransaction st userId assetCode amount key md).1
          .headerInserted <
        eventIdx (_executeTopUpTransaction st userId assetCode amount key md).1
          .balanceChecked) ∧
    (∀ (st : DB) (userId assetCode : String) (amount : Int) (key : String) (md : Metadata)
      (asset : AssetType) (u c : Account) (tt : TransactionType),
      findAsset st assetCode = some asset → findUserAccount st userId = some u →
      findSystemAccount st "SYSTEM_BONUS" = some c → findTxnType st "BONUS" = some tt →
      0 < amount → (∀ t2 ∈ st.transactions, t2.idempotency_key ≠ key) →
      (∀ r2 ∈ st.idempotency_log, r2.idempotency_key ≠ key) →
      amount ≤ _getBalance st c.id asset.id → 0 ≤ _getBalance st u.id asset.id →
      eventIdx (_executeIssueBonusTransaction st userId assetCode amount key md).1
          .headerInserted <
        eventIdx (_executeIssueBonusTransaction st userId assetCode amount key md).1
          .balanceChecked) := by
  refine ⟨?_, ?_, ?_⟩
  · intro st userId assetCode amount key md asset u c tt hA hU hC hT hAmt hKeyH hKeyI hBal hRB
    rw [executePurchase_success st userId assetCode amount key md asset u c tt
      hA hU hC hT hAmt hKeyH hKeyI hBal hRB]
    unfold checkFirstTrace
    rw [eventIdx_locks_append _ _ _ (fun a h => Event.noConfusion h),
      eventIdx_locks_append _ _ _ (fun a h => Event.noConfusion h)]
    have hix1 : eventIdx [Event.balanceChecked, Event.headerInserted,
        Event.entryInserted EntryType.debit, Event.entryInserted EntryType.credit,
        Event.cacheUpdated u.id, Event.cacheUpdated c.id, Event.idempotencyRecorded,
        Event.auditLogged] .balanceChecked = 0 := rfl
    have hix2 : eventIdx [Event.balanceChecked, Event.headerInserted,
        Event.entryInserted EntryType.debit, Event.entryInserted EntryType.credit,
        Event.cacheUpdated u.id, Event.cacheUpdated c.id, Event.idempotencyRecorded,
        Event.auditLogged] .headerInserted = 1 := rfl
    rw [hix1, hix2]
    omega
  · intro st userId assetCode amount key md asset u c tt hA hU hC hT hAmt hKeyH hKeyI hBal hUB
    rw [executeTopUp_success st userId assetCode amount key md asset u c tt
      hA hU hC hT hAmt hKeyH hKeyI hBal hUB]
    unfold headerFirstTrace
    rw [eventIdx_locks_append _ _ _ (fun a h => Event.noConfusion h),
      eventIdx_locks_append _ _ _ (fun a h => Event.noConfusion h)]
    have hix1 : eventIdx [Event.headerInserted, Event.balanceChecked,
        Event.entryInserted EntryType.debit, Event.entryInserted EntryType.credit,
        Event.cacheUpdated c.id, Event.cacheUpdated u.id, Event.idempotencyRecorded,
        Event.auditLogged] .headerInserted = 0 := rfl
    have hix2 : eventIdx [Event.headerInserted, Event.balanceChecked,
        Event.entryInserted EntryType.debit, Event.entryInserted EntryType.credit,
        Event.cacheUpdated c.id, Event.cacheUpdated u.id, Event.idempotencyRecorded,
        Event.auditLogged] .balanceChecked = 1 := rfl
    rw [hix1, hix2]
    omega
  · intro st userId assetCode amount key md asset u c tt hA hU hC hT hAmt hKeyH hKeyI hBal hUB
    rw [executeBonus_success st userId assetCode amount key md asset u c tt
      hA hU hC hT hAmt hKeyH hKeyI hBal hUB]
    unfold headerFirstTrace
    rw [eventIdx_locks_append _ _ _ (fun a h => Event.noConfusion h),
      eventIdx_locks_append _ _ _ (fun a h => Event.noConfusion h)]
    have hix1 : eventIdx [Event.headerInserted, Event.balanceChecked,
        Event.entryInserted EntryType.debit, Event.entryInserted EntryType.credit,
        Event.cacheUpdated c.id, Event.cacheUpdated u.id, Event.idempotencyRecorded,
        Event.auditLogged] .headerInserted = 0 := rfl
    have hix2 : eventIdx [Event.headerInserted, Event.balanceChecked,
        Event.entryInserted EntryType.debit, Event.entryInserted EntryType.credit,
        Event.cacheUpdated c.id, Event.cacheUpdated u.id, Event.idempotencyRecorded,
        Event.auditLogged] .balanceChecked = 1 := rfl
    rw [hix1, hix2]
    omega

/-- C8 witness: in the seeded purchase, balanceChecked precedes
headerInserted in the trace. -/
theorem claim_C8_witness :
    eventIdx (_executePurchaseTransaction seedDB "user_001" "GOLD_COIN" 100 "k2"
        Metadata.empty).1 .balanceChecked <
      eventIdx (_executePurchaseTransaction seedDB "user_001" "GOLD_COIN" 100 "k2"
        Metadata.empty).1 .headerInserted :=
  claim_C8.1 seedDB "user_001" "GOLD_COIN" 100 "k2" Metadata.empty
    ⟨1, "GOLD_COIN", true⟩ ⟨2, "USER", some "user_001", true⟩
    ⟨3, "SYSTEM_REVENUE", none, true⟩ ⟨3, "PURCHASE"⟩
    (by decide) (by decide) (by decide) (by decide) (by decide) (by decide) (by decide)
    (by decide) (by decide)

/-- C9 counterexample.  The claim's second half — a fresh movement under the
same key is processed to completion as a new transaction — is false: with
the idempotency record for "k9" expired, the lookup treats it as absent,
but the fresh topUp under "k9" fails with UniqueViolation on the
transaction header's permanent unique idempotency-key index, and the old
header remains the only one. -/
theorem claim_C9_counterexample :
    _checkIdempotency stExpired "k9" = none ∧
    topUp stExpired "user_001" "GOLD_COIN" 100 "k9" Metadata.empty =
      .error .uniqueViolation ∧
    (stExpired.transactions.filter (fun t2 => t2.idempotency_key == "k9")).length = 1 := by
  exact ⟨rfl, rfl, rfl⟩

/-- C9 (amended).  An idempotency record whose expires_at is not in the
future is treated as absent by the fast-path lookup; but a fresh movement
submitted under the same key is then NOT processed to completion: since a
committed transaction header with that key still exists, inserting the new
header raises UniqueViolation and the movement is rolled back. -/
theorem claim_C9 :
    (∀ (st : DB) (key : String),
      (∀ r2 ∈ st.idempotency_log, r2.idempotency_key = key → r2.expires_at ≤ st.now) →
      _checkIdempotency st key = none) ∧
    (∀ (st : DB) (userId assetCode : String) (amount : Int) (key : String) (md : Metadata)
      (asset : AssetType) (u c : Account) (tt : TransactionType),
      findAsset st assetCode = some asset → findUserAccount st userId = some u →
      findSystemAccount st "SYSTEM_TREASURY" = some c → findTxnType st "TOP_UP" = some tt →
      userId ≠ "" → assetCode ≠ "" → key ≠ "" → 0 < amount →
      (∀ r2 ∈ st.idempotency_log, r2.idempotency_key = key → r2.expires_at ≤ st.now) →
      (∃ t2 ∈ st.transactions, t2.idempotency_key = key) →
      topUp st userId assetCode amount key md = .error .uniqueViolation) := by
  refine ⟨checkIdem_none_of_expired, ?_⟩
  intro st userId assetCode amount key md asset u c tt hA hU hC hT hu ha hk hAmt hExp hDup
  have hIdem : _checkIdempotency st key = none := checkIdem_none_of_expired st key hExp
  show topUpFromStates st st userId assetCode amount key md = .error .uniqueViolation
  rw [topUpFromStates_exec st st userId assetCode amount key md hu ha hk hAmt hIdem]
  rw [executeTopUp_dupKey st userId assetCode amount key md asset u c tt hA hU hC hT hDup]

/-- C9 witness: the concrete expired-key state instantiates both halves. -/
theorem claim_C9_witness :
    _checkIdempotency stExpired "k9" = none ∧
    topUp stExpired "user_001" "GOLD_COIN" 100 "k9" Metadata.empty =
      .error .uniqueViolation :=
  ⟨claim_C9.1 stExpired "k9" (by decide),
   claim_C9.2 stExpired "user_001" "GOLD_COIN" 100 "k9" Metadata.empty
     ⟨1, "GOLD_COIN", true⟩ ⟨2, "USER", some "user_001", true⟩
     ⟨1, "SYSTEM_TREASURY", none, true⟩ ⟨1, "TOP_UP"⟩
     (by decide) (by decide) (by decide) (by decide)
     (by decide) (by decide) (by decide) (by decide) (by decide)
     ⟨⟨5, "k9", 1, 1, 100, "Top-up 100 GOLD_COIN", "completed", some 900⟩, by decide, rfl⟩⟩

end Wallet
